import Mathlib

/-!
# Notification rate limiter: model and verified properties

A shallow embedding of the `notification` package (request validation, type
resolution through a cache, rate-limit evaluation, the `Send` orchestration and
the constructor), of the in-memory `mock` storer and of the webhook's request
type in `main.go`, followed by the properties proved about them.

Conventions of the embedding:

* a Go `error` result is an `Option Error` (`none` is `nil`), a `(T, error)`
  result is an `Except Error T`;
* Go `int` values (64 bits wide) are `Int`; the one place where the source
  multiplies into an `int64` (`time.Second * time.Duration(RateLimit)`), and
  the negation that follows it, are reduced with `wrapInt64`;
* a `time.Time` is an instant in nanoseconds on the clock's axis, compared and
  shifted exactly, and a `time.Duration` an `int64` nanosecond count;
* a Go `string` is a `String` read rune by rune; the folding table of
  `strings.EqualFold` is a parameter `fold` of the definitions that compare
  names, so every property holds for the Unicode table as for any other;
* collaborators (`Cacher`, `Storer`, `Sender`, the clock) are functions on an
  arbitrary state, and every invocation made by the core is logged as a `Call`;
* `time.ParseDuration` follows the library's loop on `uint64` values; its one
  floating-point step is a parameter `fraction`, and a panic of the
  constructor is an `error` result carrying the panic value.
-/

set_option linter.dupNamespace false

namespace notification

/-! ## Library functions used by the source -/

/-- Instants, in nanoseconds on the clock's axis (`time.Time`). -/
abbrev Time := Int

/-- Signed 64-bit nanosecond counts (`time.Duration`). -/
abbrev Duration := Int

/-- Reduction of an integer to the two's complement `int64` range. -/
def wrapInt64 (x : Int) : Int :=
  (x + 9223372036854775808) % 18446744073709551616 - 9223372036854775808

/-- The constant `time.Second`, in nanoseconds. -/
def Second : Duration := 1000000000

/-- The method `Time.Add`: the instant `d` nanoseconds later. -/
def Time.Add (t : Time) (d : Duration) : Time := t + d

/-- The method `Time.After`: strictly later. -/
def Time.After (t u : Time) : Bool := decide (u < t)

/-- The predicate `unicode.IsSpace`: the runes with the White_Space property. -/
def isSpace (c : Char) : Bool :=
  let r := c.toNat
  (9 ≤ r && r ≤ 13) || r == 32 || r == 133 || r == 160 || r == 5760
    || (8192 ≤ r && r ≤ 8202) || r == 8232 || r == 8233 || r == 8239
    || r == 8287 || r == 12288

/-- The function `strings.TrimSpace`: leading and trailing white space removed. -/
def TrimSpace (s : String) : String :=
  ⟨((s.data.dropWhile isSpace).reverse.dropWhile isSpace).reverse⟩

/-- The rune loop of `strings.EqualFold`: two runes agree when they are equal or
lie in the same simple-folding orbit. The Unicode folding table is the
parameter `fold`, which sends a rune to the representative of its orbit. -/
def equalFoldRunes (fold : Char → Char) : List Char → List Char → Bool
  | [], [] => true
  | a :: s, b :: t => (a == b || fold a == fold b) && equalFoldRunes fold s t
  | _, _ => false

/-- The function `strings.EqualFold`. -/
def EqualFold (fold : Char → Char) (s t : String) : Bool :=
  equalFoldRunes fold s.data t.data

/-- Lines joined by a newline, as `joinError.Error` builds its text. -/
def joinLines : List String → String
  | [] => ""
  | [a] => a
  | a :: b :: rest => a ++ "\n" ++ joinLines (b :: rest)

/-! ## Errors -/

/-- Error values. `RateLimitError` is the package-level sentinel; `errorString`
is a value built by `errors.New` or `fmt.Errorf` inside the core; `joinError`
is the result of `errors.Join` and keeps the texts of the joined errors;
`external` is an error value made by a collaborator. -/
inductive Error where
  | RateLimitError
  | errorString (text : String)
  | joinError (texts : List String)
  | external (id : Nat) (text : String)
  deriving DecidableEq, Repr

/-- The method `Error()` of an error value. -/
def Error.Error : Error → String
  | .RateLimitError => "notification rate limit reached"
  | .errorString s => s
  | .joinError ts => joinLines ts
  | .external _ s => s

/-- The function `errors.Join` on the texts of non-nil errors: `nil` when there
is none. -/
def errorsJoin (errs : List String) : Option Error :=
  if errs.length = 0 then none else some (Error.joinError errs)

/-! ## model.go -/

/-- The struct `Request`; `Typ` is the field `Type`. -/
structure Request where
  Typ : String
  Message : String
  UserID : Int
  deriving DecidableEq, Repr

/-- The method `Request.Validate`. -/
def Request.Validate (req : Request) : Option Error :=
  let errs : List String := []
  let errs := if TrimSpace req.Message = "" then errs ++ ["message is required"] else errs
  let errs := if TrimSpace req.Typ = "" then errs ++ ["type is required"] else errs
  let errs := if req.UserID ≤ 0 then errs ++ ["user id is required"] else errs
  errorsJoin errs

/-- The struct `Type` of model.go. -/
structure NotifType where
  ID : Int
  Name : String
  RateLimit : Int
  RequestLimit : Int
  IsEnable : Bool
  deriving DecidableEq, Repr

/-- The slice type `Types`. -/
abbrev Types := List NotifType

/-- The zero value `Type{}`. -/
def NotifType.zero : NotifType := ⟨0, "", 0, 0, false⟩

/-- The method `Type.Exists`. -/
def NotifType.Exists (t : NotifType) : Bool := t.ID != 0

/-- The method `Types.GetByName`: the first element whose name folds to the
given one, the zero value when the loop ends without a match. -/
def GetByName (fold : Char → Char) : Types → String → NotifType
  | [], _ => NotifType.zero
  | t :: rest, nType => if EqualFold fold t.Name nType then t else GetByName fold rest nType

/-- The struct `Notification`; `Typ` is the field `Type`. -/
structure Notification where
  ID : Int
  UserID : Int
  Typ : NotifType
  Date : Time
  deriving DecidableEq, Repr

/-- The slice type `Notifications`. -/
abbrev Notifications := List Notification

/-- The constructor `NewNotification`: id and date keep their zero values. -/
def NewNotification (userID : Int) (notifType : NotifType) : Notification :=
  ⟨0, userID, notifType, 0⟩

/-- The method `Notifications.HasAny`. -/
def HasAny (n : Notifications) : Bool := n.length != 0

/-- The validation rules of the specification as pairs of a violation test and
its message, in the order the specification lists them. -/
def validationRules (req : Request) : List (Bool × String) :=
  [(decide (TrimSpace req.Message = ""), "message is required"),
   (decide (TrimSpace req.Typ = ""), "type is required"),
   (decide (req.UserID ≤ 0), "user id is required")]

/-- The messages of the rules a request violates, in the specification's order. -/
def violatedRules (req : Request) : List String :=
  ((validationRules req).filter (fun rule => rule.1)).map (fun rule => rule.2)

/-! ## Collaborators and the log of their invocations -/

/-- One invocation of a collaborator by the core, with its arguments. -/
inductive Call where
  | cacheGet (key : String)
  | getTypes
  | cacheSet (key : String) (value : Types) (ttl : Duration)
  | getUserNotificationSinceDate (userID : Int) (ntype : String) (startDate : Time)
  | gatewaySend (userID : Int) (message : String)
  | save (notifType : NotifType) (userID : Int)
  deriving DecidableEq, Repr

/-- The interface `Storer`, as functions on the collaborators' state `σ`. -/
structure Storer (σ : Type) where
  GetUserNotificationSinceDate : Int → String → Time → σ → Except Error Notifications × σ
  GetTypes : σ → Except Error Types × σ
  Save : NotifType → Int → σ → Option Error × σ

/-- The interface `Cacher`. `Get` yields, on success, the content of the slice
it was given a pointer to (empty when the cacher wrote nothing); `Set` reads
the value it is given. -/
structure Cacher (σ : Type) where
  Get : String → σ → Except Error Types × σ
  Set : String → Types → Duration → σ → Option Error × σ

/-- The interface `Sender`. -/
structure Sender (σ : Type) where
  Send : Int → String → σ → Option Error × σ

/-- The struct `NotificationService`, with the clock `time.Now` it reads. -/
structure NotificationService (σ : Type) where
  gateway : Sender σ
  repository : Storer σ
  cache : Cacher σ
  ttl : Duration
  now : σ → Time

/-- A point of an execution: the collaborators' state and the invocations made
so far, oldest first. -/
structure Run (σ : Type) where
  state : σ
  calls : List Call

/-- An invocation of `repository.Save`. -/
def Call.isSave : Call → Bool
  | .save _ _ => true
  | _ => false

/-- An invocation of `gateway.Send`. -/
def Call.isGatewaySend : Call → Bool
  | .gatewaySend _ _ => true
  | _ => false

/-- An invocation of `repository.GetUserNotificationSinceDate`. -/
def Call.isHistoryQuery : Call → Bool
  | .getUserNotificationSinceDate _ _ _ => true
  | _ => false

/-- An invocation of `repository.GetTypes`. -/
def Call.isGetTypes : Call → Bool
  | .getTypes => true
  | _ => false

/-- An invocation of `cache.Set`. -/
def Call.isCacheSet : Call → Bool
  | .cacheSet _ _ _ => true
  | _ => false

/-- The constant `notificationTypeKey`. -/
def notificationTypeKey : String := "notification_types"

section core
variable {σ : Type} (fold : Char → Char) (ns : NotificationService σ)

/-- The invocation `ns.cache.Get(key, &types)`. -/
def callCacheGet (key : String) (w : Run σ) : Except Error Types × Run σ :=
  ((ns.cache.Get key w.state).1, ⟨(ns.cache.Get key w.state).2, w.calls ++ [Call.cacheGet key]⟩)

/-- The invocation `ns.repository.GetTypes()`. -/
def callGetTypes (w : Run σ) : Except Error Types × Run σ :=
  ((ns.repository.GetTypes w.state).1, ⟨(ns.repository.GetTypes w.state).2, w.calls ++ [Call.getTypes]⟩)

/-- The invocation `ns.cache.Set(key, &types, ttl)`. -/
def callCacheSet (key : String) (value : Types) (ttl : Duration) (w : Run σ) :
    Option Error × Run σ :=
  ((ns.cache.Set key value ttl w.state).1,
    ⟨(ns.cache.Set key value ttl w.state).2, w.calls ++ [Call.cacheSet key value ttl]⟩)

/-- The invocation `ns.repository.GetUserNotificationSinceDate(userID, ntype, startDate)`. -/
def callGetUserNotificationSinceDate (userID : Int) (ntype : String) (startDate : Time)
    (w : Run σ) : Except Error Notifications × Run σ :=
  ((ns.repository.GetUserNotificationSinceDate userID ntype startDate w.state).1,
    ⟨(ns.repository.GetUserNotificationSinceDate userID ntype startDate w.state).2,
      w.calls ++ [Call.getUserNotificationSinceDate userID ntype startDate]⟩)

/-- The invocation `ns.gateway.Send(userID, message)`. -/
def callGatewaySend (userID : Int) (message : String) (w : Run σ) : Option Error × Run σ :=
  ((ns.gateway.Send userID message w.state).1,
    ⟨(ns.gateway.Send userID message w.state).2, w.calls ++ [Call.gatewaySend userID message]⟩)

/-- The invocation `ns.repository.Save(notifType, userID)`. -/
def callSave (notifType : NotifType) (userID : Int) (w : Run σ) : Option Error × Run σ :=
  ((ns.repository.Save notifType userID w.state).1,
    ⟨(ns.repository.Save notifType userID w.state).2, w.calls ++ [Call.save notifType userID]⟩)

/-- The tail of `getValidatedTypeByName`: the existence test on the looked-up
type. -/
def checkExists (name : String) (notifType : NotifType) : Except Error NotifType :=
  if !notifType.Exists then
    .error (.errorString ("notification type '" ++ name ++ "' not found or disabled"))
  else .ok notifType

/-- The method `getValidatedTypeByName`. -/
def getValidatedTypeByName (name : String) (w : Run σ) : Except Error NotifType × Run σ :=
  match callCacheGet ns notificationTypeKey w with
  | (.ok types, w1) => (checkExists name (GetByName fold types name), w1)
  | (.error _, w1) =>
    match callGetTypes ns w1 with
    | (.error err, w2) => (.error err, w2)
    | (.ok types, w2) =>
      match callCacheSet ns notificationTypeKey types ns.ttl w2 with
      | (some err, w3) => (.error err, w3)
      | (none, w3) => (checkExists name (GetByName fold types name), w3)

/-- The window length `time.Second * time.Duration(notifType.RateLimit)`, an
`int64` product. -/
def rateLimitDuration (notifType : NotifType) : Duration :=
  wrapInt64 (Second * notifType.RateLimit)

/-- The lower bound `time.Now().Add(-rateLimitDuration)` of the window. -/
def windowStart (now : Time) (notifType : NotifType) : Time :=
  Time.Add now (wrapInt64 (-(rateLimitDuration notifType)))

/-- The method `validateRateLimit`. -/
def validateRateLimit (notifType : NotifType) (userID : Int) (w : Run σ) :
    Option Error × Run σ :=
  let startDate := windowStart (ns.now w.state) notifType
  match callGetUserNotificationSinceDate ns userID notifType.Name startDate w with
  | (.error err, w1) => (some err, w1)
  | (.ok notifications, w1) =>
    if HasAny notifications then
      if (notifications.length : Int) ≥ notifType.RequestLimit then (some Error.RateLimitError, w1)
      else (none, w1)
    else (none, w1)

/-- The method `NotificationService.Send`. -/
def Send (req : Request) (w : Run σ) : Option Error × Run σ :=
  match req.Validate with
  | some err => (some err, w)
  | none =>
    match getValidatedTypeByName fold ns req.Typ w with
    | (.error err, w1) => (some err, w1)
    | (.ok notifType, w1) =>
      match validateRateLimit ns notifType req.UserID w1 with
      | (some err, w2) => (some err, w2)
      | (none, w2) =>
        match callGatewaySend ns req.UserID req.Message w2 with
        | (some err, w3) => (some err, w3)
        | (none, w3) => callSave ns notifType req.UserID w3

end core

/-! ## The constructor and `time.ParseDuration` -/

/-- A decimal digit byte. -/
def isDigit (c : Char) : Bool := 48 ≤ c.toNat && c.toNat ≤ 57

/-- The helper `leadingInt` of package `time`: the leading decimal digits of
`s` added to `x`, and the rest of `s`; `none` is `errLeadingInt` (the value
passes `1 << 63`). -/
def leadingInt : List Char → Nat → Option (Nat × List Char)
  | [], x => some (x, [])
  | c :: s, x =>
    if !isDigit c then some (x, c :: s)
    else if x > 9223372036854775808 / 10 then none
    else if x * 10 + (c.toNat - 48) > 9223372036854775808 then none
    else leadingInt s (x * 10 + (c.toNat - 48))

/-- The helper `leadingFraction` of package `time`: the leading digits of `s`
as an integer `x` with `scale` the power of ten they are to be divided by;
digits past the capacity of `x` are consumed and dropped. -/
def leadingFraction : List Char → Nat → Nat → Bool → Nat × Nat × List Char
  | [], x, scale, _ => (x, scale, [])
  | c :: s, x, scale, overflow =>
    if !isDigit c then (x, scale, c :: s)
    else if overflow then leadingFraction s x scale true
    else if x > (9223372036854775808 - 1) / 10 then leadingFraction s x scale true
    else if x * 10 + (c.toNat - 48) > 9223372036854775808 then leadingFraction s x scale true
    else leadingFraction s (x * 10 + (c.toNat - 48)) (scale * 10) false

/-- The table `unitMap` of package `time`, in nanoseconds. -/
def unitMap (u : String) : Option Nat :=
  if u = "ns" then some 1
  else if u = "us" then some 1000
  else if u = "µs" then some 1000
  else if u = "μs" then some 1000
  else if u = "ms" then some 1000000
  else if u = "s" then some 1000000000
  else if u = "m" then some 60000000000
  else if u = "h" then some 3600000000000
  else none

/-- The outcome of the parsing loop: the nanoseconds accumulated, an error, or
the end of the fuel of the model. -/
inductive Parsed where
  | value (d : Nat)
  | invalid
  | outOfFuel
  deriving DecidableEq, Repr

/-- The step "consume `(\.[0-9]*)?`" of the parsing loop: the fraction digits
as an integer, their scale, the rest of the input, and whether a digit was
read after the point. Without a point nothing is read. -/
def readFraction : List Char → Nat × Nat × List Char × Bool
  | '.' :: s2 =>
    ((leadingFraction s2 0 1 false).1, (leadingFraction s2 0 1 false).2.1,
      (leadingFraction s2 0 1 false).2.2,
      s2.length != (leadingFraction s2 0 1 false).2.2.length)
  | s1 => (0, 1, s1, false)

/-- The bytes that end a unit: a point or a digit. -/
def endsUnit (b : Char) : Bool := b == '.' || isDigit b

/-- The loop `for s != ""` of `time.ParseDuration` on the `uint64` accumulator
`d`. Each round reads digits, an optional fraction and a unit. The one
floating-point step, `uint64(float64(f) * (float64(unit) / scale))`, is the
parameter `fraction`; it is used only when the fraction digits are not all
zero. -/
def parseLoop (fraction : Nat → Nat → Nat → Nat) : Nat → List Char → Nat → Parsed
  | _, [], d => .value d
  | 0, _ :: _, _ => .outOfFuel
  | fuel + 1, c :: s, d =>
    if !endsUnit c then .invalid
    else
      match leadingInt (c :: s) 0 with
      | none => .invalid
      | some (v, s1) =>
        if !((c :: s).length != s1.length) && !(readFraction s1).2.2.2 then .invalid
        else if ((readFraction s1).2.2.1.takeWhile (fun b => !endsUnit b)).length = 0 then
          .invalid
        else
          match unitMap (String.mk ((readFraction s1).2.2.1.takeWhile (fun b => !endsUnit b))) with
          | none => .invalid
          | some unit =>
            if v > 9223372036854775808 / unit then .invalid
            else if (readFraction s1).1 > 0
                && (v * unit + fraction (readFraction s1).1 unit (readFraction s1).2.1)
                    % 18446744073709551616 > 9223372036854775808 then .invalid
            else if (d + (if (readFraction s1).1 > 0
                    then (v * unit + fraction (readFraction s1).1 unit (readFraction s1).2.1)
                      % 18446744073709551616
                    else v * unit)) % 18446744073709551616 > 9223372036854775808 then .invalid
            else parseLoop fraction fuel
              ((readFraction s1).2.2.1.dropWhile (fun b => !endsUnit b))
              ((d + (if (readFraction s1).1 > 0
                    then (v * unit + fraction (readFraction s1).1 unit (readFraction s1).2.1)
                      % 18446744073709551616
                    else v * unit)) % 18446744073709551616)

/-- The part of `time.ParseDuration` after the sign: the special case "0", the
empty rest, and the loop, followed by the range check of the result. -/
def parseUnsigned (fraction : Nat → Nat → Nat → Nat) (neg : Bool) (s : List Char) :
    Option Duration :=
  if s = ['0'] then some 0
  else if s = [] then none
  else
    match parseLoop fraction s.length s 0 with
    | .value d =>
      if neg then some (wrapInt64 (-(wrapInt64 d)))
      else if d > 9223372036854775808 - 1 then none
      else some d
    | _ => none

/-- The function `time.ParseDuration`; `none` is its error, whose text the
caller drops. -/
def ParseDuration (fraction : Nat → Nat → Nat → Nat) (s : String) : Option Duration :=
  match s.data with
  | [] => parseUnsigned fraction false []
  | c :: rest =>
    if c = '-' ∨ c = '+' then parseUnsigned fraction (decide (c = '-')) rest
    else parseUnsigned fraction false (c :: rest)

/-- The struct `Config`. -/
structure Config where
  CacheTTL : String
  deriving DecidableEq, Repr

/-- The constructor `NewNotificationService`; an `error` result is the panic
with that value. The clock the service reads is passed along with the
collaborators. -/
def NewNotificationService {σ : Type} (fraction : Nat → Nat → Nat → Nat) (gateway : Sender σ)
    (repository : Storer σ) (cache : Cacher σ) (now : σ → Time) (config : Config) :
    Except String (NotificationService σ) :=
  match ParseDuration fraction config.CacheTTL with
  | none => .error "required cache ttl invalid or not found"
  | some ttl => .ok ⟨gateway, repository, cache, ttl, now⟩

end notification

/-! ## mock.go -/

namespace mock
open notification

/-- The struct `memoryRepo`. -/
structure memoryRepo where
  notifications : Notifications
  types : Types
  deriving DecidableEq, Repr

/-- The constructor `NewNotificationMemoryRepo`. -/
def NewNotificationMemoryRepo : memoryRepo :=
  { notifications := [],
    types := [⟨1, "STATUS", 120, 2, true⟩, ⟨2, "NEWS", 86400, 1, true⟩,
              ⟨2, "MARKETING", 10800, 3, true⟩] }

/-- The test the loop of `GetUserNotificationSinceDate` makes on one stored
record: the type name folds to `ntype`, the user is `userID`, and the date is
after `startDate`. -/
def matchesSince (fold : Char → Char) (userID : Int) (ntype : String) (startDate : Time)
    (n : Notification) : Bool :=
  EqualFold fold n.Typ.Name ntype && n.UserID == userID && Time.After n.Date startDate

/-- The loop of `GetUserNotificationSinceDate`: `sinceDateLoop ... (i + 1) data`
is the state in which the index is `i` and the records appended so far are
`data`; the index goes down to 0 and the loop ends below it. An index outside
the slice, which the loop never reaches, is skipped. -/
def sinceDateLoop (fold : Char → Char) (userID : Int) (ntype : String) (startDate : Time)
    (notifications : Notifications) : Nat → Notifications → Notifications
  | 0, data => data
  | i + 1, data =>
    match notifications[i]? with
    | some n =>
      if matchesSince fold userID ntype startDate n then
        sinceDateLoop fold userID ntype startDate notifications i (data ++ [n])
      else sinceDateLoop fold userID ntype startDate notifications i data
    | none => sinceDateLoop fold userID ntype startDate notifications i data

/-- The method `memoryRepo.GetUserNotificationSinceDate`, whose error is always
`nil`: the stored records are scanned from the last to the first and the
matching ones appended in that order. -/
def memoryRepo.GetUserNotificationSinceDate (fold : Char → Char) (r : memoryRepo)
    (userID : Int) (ntype : String) (startDate : Time) : Notifications :=
  if r.notifications.length = 0 then []
  else sinceDateLoop fold userID ntype startDate r.notifications r.notifications.length []

/-- The records of a history that belong to a user and a type, the type being
matched by name up to case, whatever their date. -/
def recordsOf (fold : Char → Char) (history : Notifications) (userID : Int) (t : NotifType) :
    Notifications :=
  history.filter (fun n => decide (n.UserID = userID) && EqualFold fold n.Typ.Name t.Name)

/-- The records of a history that belong to a user and to a type name, matched
up to case, in the order they are stored. -/
def recordsNamed (fold : Char → Char) (history : Notifications) (userID : Int)
    (name : String) : Notifications :=
  history.filter (fun n => decide (n.UserID = userID) && EqualFold fold n.Typ.Name name)

/-- The records of a history that belong to a user and a type and are dated
strictly after `now - rateLimitSeconds` seconds: the window of the
specification, in exact arithmetic. -/
def recordsInWindow (fold : Char → Char) (history : Notifications) (userID : Int)
    (t : NotifType) (now : Time) : Notifications :=
  (recordsOf fold history userID t).filter
    (fun n => decide (now - 1000000000 * t.RateLimit < n.Date))

/-- The method `memoryRepo.GetTypes`, whose error is always `nil`: the registry
is scanned in order and each type with `IsEnable` set is appended. -/
def memoryRepo.GetTypes (r : memoryRepo) : Types :=
  r.types.foldl (fun types t => if t.IsEnable then types ++ [t] else types) []

/-- The method `memoryRepo.Save`, whose error is always `nil`; `now` is the
reading of `time.Now()`. -/
def memoryRepo.Save (r : memoryRepo) (notifType : NotifType) (userID : Int) (now : Time) :
    memoryRepo :=
  let notif := NewNotification userID notifType
  let notif := { notif with ID := (r.notifications.length : Int) + 1 }
  let notif := { notif with Date := now }
  { r with notifications := r.notifications ++ [notif] }

/-- One `Save` call: the type, the user and the reading of the clock inside the
call. -/
structure SaveCall where
  notifType : NotifType
  userID : Int
  now : Time
  deriving DecidableEq, Repr

/-- The repository reached from `r` by a sequence of `Save` calls, in order. -/
def applySaves (r : memoryRepo) (saves : List SaveCall) : memoryRepo :=
  saves.foldl (fun repo c => repo.Save c.notifType c.userID c.now) r

section world
variable {τ : Type}

/-- The `memoryRepo` as the `Storer` of a service whose other collaborators
(cache, gateway, clock) live in a state `τ` of their own. -/
def memoryStorer (fold : Char → Char) (now : τ → Time) : Storer (memoryRepo × τ) where
  GetUserNotificationSinceDate userID ntype startDate s :=
    (.ok (s.1.GetUserNotificationSinceDate fold userID ntype startDate), s)
  GetTypes s := (.ok s.1.GetTypes, s)
  Save notifType userID s := (none, (s.1.Save notifType userID (now s.2), s.2))

/-- A service over the `memoryRepo`: the cache, the gateway and the clock act on
their own state and leave the repository alone. -/
def memoryService (fold : Char → Char) (gateway : Sender τ) (cache : Cacher τ)
    (ttl : Duration) (now : τ → Time) : NotificationService (memoryRepo × τ) where
  gateway := ⟨fun userID message s =>
    ((gateway.Send userID message s.2).1, (s.1, (gateway.Send userID message s.2).2))⟩
  repository := memoryStorer fold now
  cache := ⟨fun key s => ((cache.Get key s.2).1, (s.1, (cache.Get key s.2).2)),
    fun key value ttl s => ((cache.Set key value ttl s.2).1, (s.1, (cache.Set key value ttl s.2).2))⟩
  ttl := ttl
  now := fun s => now s.2

end world

end mock

/-! ## main.go -/

namespace main
open notification

/-- The struct `Request` of the webhook; `Typ` is the field `Type`. -/
structure Request where
  Typ : String
  UserID : Int
  Message : String
  deriving DecidableEq, Repr

/-- The method `Request.Validate` of the webhook. -/
def Request.Validate (req : Request) : Option Error :=
  let errs : List String := []
  let errs := if TrimSpace req.Message = "" then errs ++ ["message is required"] else errs
  let errs := if TrimSpace req.Typ = "" then errs ++ ["type is required"] else errs
  let errs := if req.UserID ≤ 0 then errs ++ ["user id is required"] else errs
  errorsJoin errs

/-- The method `Request.ToNotification`. -/
def Request.ToNotification (r : Request) : notification.Request :=
  { Typ := r.Typ, Message := r.Message, UserID := r.UserID }

end main

/-! ## Concrete collaborators on which the model is evaluated -/

namespace fixture
open notification mock

/-- A gateway that delivers every message. -/
def okGateway : Sender Time := ⟨fun _ _ s => (none, s)⟩

/-- A gateway that fails on every message. -/
def failGateway : Sender Time := ⟨fun _ _ s => (some (.external 2 "sender_test_err"), s)⟩

/-- A gateway that fails on every message with the package's own sentinel. -/
def sentinelGateway : Sender Time := ⟨fun _ _ s => (some Error.RateLimitError, s)⟩

/-- A cache that holds nothing and accepts every write. -/
def coldCache : Cacher Time :=
  ⟨fun _ s => (.error (.external 0 "key not found"), s), fun _ _ _ s => (none, s)⟩

/-- A cache that holds nothing and refuses every write. -/
def failSetCache : Cacher Time :=
  ⟨fun _ s => (.error (.external 0 "key not found"), s),
    fun _ _ _ s => (some (.external 1 "set_cache_err"), s)⟩

/-- A cache that holds the given set of types. -/
def warmCache (types : Types) : Cacher Time :=
  ⟨fun _ s => (.ok types, s), fun _ _ _ s => (none, s)⟩

/-- One hour, the time-to-live of the cached set. -/
def hour : Duration := 3600000000000

/-- The service over the in-memory repository; the state of the other
collaborators is the clock reading. -/
def service (gateway : Sender Time) (cache : Cacher Time) :
    NotificationService (memoryRepo × Time) :=
  memoryService Char.toLower gateway cache hour (fun s => s)

/-- The start of an execution on the repository `r` at clock reading `now`. -/
def start (r : memoryRepo) (now : Time) : Run (memoryRepo × Time) := ⟨(r, now), []⟩

/-- A repository whose registry is the single type `t` and whose history is
the given records. -/
def repoOf (t : NotifType) (history : Notifications) : memoryRepo := ⟨history, [t]⟩

/-- The type `STATUS` of the seeded registry: two sends per 120 seconds. -/
def status : NotifType := ⟨1, "STATUS", 120, 2, true⟩

/-- A type whose window of 9223372037 seconds does not fit an `int64`
nanosecond count. -/
def longWindow : NotifType := ⟨1, "STATUS", 9223372037, 1, true⟩

/-- A type that allows no send at all. -/
def zeroLimit : NotifType := ⟨1, "STATUS", 120, 0, true⟩

/-- A type with a negative request limit. -/
def negativeLimit : NotifType := ⟨1, "STATUS", 120, -1, true⟩

/-- A type whose window of -9223372037 seconds does not fit an `int64`
nanosecond count. -/
def negativeWindow : NotifType := ⟨1, "STATUS", -9223372037, 1, true⟩

/-- A valid request of user 1 for the type `STATUS`. -/
def statusRequest : Request := ⟨"STATUS", "hi", 1⟩

/-- A type named `STATUS` that is not enabled. -/
def disabledStatus : NotifType := ⟨1, "STATUS", 120, 2, false⟩

/-- A storer that fails on every call. -/
def failStorer : Storer Time :=
  ⟨fun _ _ _ s => (.error (.external 3 "storer_test_err"), s),
    fun s => (.error (.external 3 "storer_test_err"), s),
    fun _ _ s => (some (.external 3 "storer_test_err"), s)⟩

/-- A stand-in for the floating-point step of `time.ParseDuration`: the exact
quotient, rounded down. -/
def exactFraction (f unit scale : Nat) : Nat := f * unit / scale

/-- The type `NEWS` of the seeded registry. -/
def news : NotifType := ⟨2, "NEWS", 86400, 1, true⟩

/-- A history of user 1 alone: two `STATUS` sends, at 0 s and 10 s. -/
def historyAlone : Notifications := [⟨1, 1, status, 0⟩, ⟨2, 1, status, 10000000000⟩]

/-- The same two `STATUS` sends of user 1, stored among a `STATUS` send of
user 2 and a `NEWS` send of user 1, which shift their ids. -/
def historyAmongOthers : Notifications :=
  [⟨1, 2, status, 5⟩, ⟨2, 1, status, 0⟩, ⟨3, 1, news, 7⟩, ⟨4, 1, status, 10000000000⟩,
    ⟨5, 2, status, 19000000000⟩]

end fixture

/-! ## Properties -/

namespace notification
open mock fixture

/-! ### Library facts -/

theorem equalFoldRunes_refl (fold : Char → Char) (l : List Char) :
    equalFoldRunes fold l l = true := by
  induction l with
  | nil => rfl
  | cons a l ih => simp [equalFoldRunes, ih]

theorem EqualFold_refl (fold : Char → Char) (s : String) : EqualFold fold s s = true :=
  equalFoldRunes_refl fold s.data

theorem wrapInt64_of_fits (x : Int) (hlo : -9223372036854775808 ≤ x)
    (hhi : x < 9223372036854775808) : wrapInt64 x = x := by
  unfold wrapInt64
  omega

theorem windowStart_of_fits (now : Time) (t : NotifType)
    (hlo : -9223372036854775808 < 1000000000 * t.RateLimit)
    (hhi : 1000000000 * t.RateLimit < 9223372036854775808) :
    windowStart now t = now - 1000000000 * t.RateLimit := by
  unfold windowStart rateLimitDuration Time.Add Second
  rw [wrapInt64_of_fits _ (le_of_lt hlo) hhi, wrapInt64_of_fits _ (by omega) (by omega)]
  exact (Int.sub_eq_add_neg).symm

theorem GetByName_of_no_match (fold : Char → Char) (types : Types) (name : String)
    (habsent : ∀ t ∈ types, EqualFold fold t.Name name = false) :
    GetByName fold types name = NotifType.zero := by
  induction types with
  | nil => rfl
  | cons t rest ih =>
    have ht : EqualFold fold t.Name name = false := habsent t (List.mem_cons_self _ _)
    simp only [GetByName, ht]
    exact ih (fun u hu => habsent u (List.mem_cons_of_mem _ hu))

theorem GetByName_eq_find (fold : Char → Char) (types : Types) (name : String) :
    GetByName fold types name
      = (types.find? (fun t => EqualFold fold t.Name name)).getD NotifType.zero := by
  induction types with
  | nil => rfl
  | cons t rest ih =>
    by_cases ht : EqualFold fold t.Name name = true
    · simp [GetByName, List.find?, ht]
    · simp [GetByName, List.find?, ht, ih]

/-! ### Equations of the core, one per path -/

section equations
variable {σ : Type} (fold : Char → Char) (ns : NotificationService σ)

theorem getValidatedTypeByName_hit (name : String) (w : Run σ) (types : Types)
    (hget : (ns.cache.Get notificationTypeKey w.state).1 = .ok types) :
    getValidatedTypeByName fold ns name w
      = (checkExists name (GetByName fold types name),
          ⟨(ns.cache.Get notificationTypeKey w.state).2,
            w.calls ++ [Call.cacheGet notificationTypeKey]⟩) := by
  simp [getValidatedTypeByName, callCacheGet, hget]

theorem getValidatedTypeByName_fetch_error (name : String) (w : Run σ) (e err : Error)
    (hget : (ns.cache.Get notificationTypeKey w.state).1 = .error e)
    (hfetch : (ns.repository.GetTypes (ns.cache.Get notificationTypeKey w.state).2).1
      = .error err) :
    getValidatedTypeByName fold ns name w
      = (.error err,
          ⟨(ns.repository.GetTypes (ns.cache.Get notificationTypeKey w.state).2).2,
            w.calls ++ [Call.cacheGet notificationTypeKey, Call.getTypes]⟩) := by
  simp [getValidatedTypeByName, callCacheGet, callGetTypes, hget, hfetch]

theorem getValidatedTypeByName_fetch_ok (name : String) (w : Run σ) (e : Error) (types : Types)
    (hget : (ns.cache.Get notificationTypeKey w.state).1 = .error e)
    (hfetch : (ns.repository.GetTypes (ns.cache.Get notificationTypeKey w.state).2).1
      = .ok types) :
    getValidatedTypeByName fold ns name w
      = ((match (ns.cache.Set notificationTypeKey types ns.ttl
            (ns.repository.GetTypes (ns.cache.Get notificationTypeKey w.state).2).2).1 with
          | some err => .error err
          | none => checkExists name (GetByName fold types name)),
          ⟨(ns.cache.Set notificationTypeKey types ns.ttl
              (ns.repository.GetTypes (ns.cache.Get notificationTypeKey w.state).2).2).2,
            w.calls ++ [Call.cacheGet notificationTypeKey, Call.getTypes,
              Call.cacheSet notificationTypeKey types ns.ttl]⟩) := by
  cases hset : (ns.cache.Set notificationTypeKey types ns.ttl
      (ns.repository.GetTypes (ns.cache.Get notificationTypeKey w.state).2).2).1 <;>
    simp [getValidatedTypeByName, callCacheGet, callGetTypes, callCacheSet, hget, hfetch, hset]

theorem validateRateLimit_eq (notifType : NotifType) (userID : Int) (w : Run σ) :
    validateRateLimit ns notifType userID w
      = ((match (ns.repository.GetUserNotificationSinceDate userID notifType.Name
            (windowStart (ns.now w.state) notifType) w.state).1 with
          | .error err => some err
          | .ok notifications =>
            if notifications ≠ [] ∧ notifType.RequestLimit ≤ (notifications.length : Int)
            then some Error.RateLimitError else none),
          ⟨(ns.repository.GetUserNotificationSinceDate userID notifType.Name
              (windowStart (ns.now w.state) notifType) w.state).2,
            w.calls ++ [Call.getUserNotificationSinceDate userID notifType.Name
              (windowStart (ns.now w.state) notifType)]⟩) := by
  cases hq : (ns.repository.GetUserNotificationSinceDate userID notifType.Name
      (windowStart (ns.now w.state) notifType) w.state).1 with
  | error err => simp [validateRateLimit, callGetUserNotificationSinceDate, hq]
  | ok notifications =>
    by_cases h1 : notifications = [] <;>
      by_cases h2 : notifType.RequestLimit ≤ (notifications.length : Int) <;>
      simp [validateRateLimit, callGetUserNotificationSinceDate, hq, HasAny, h1, h2]

theorem getValidatedTypeByName_countP (name : String) (w : Run σ) (p : Call → Bool)
    (hget : ∀ key, p (Call.cacheGet key) = false) (hfetch : p Call.getTypes = false)
    (hset : ∀ key value ttl, p (Call.cacheSet key value ttl) = false) :
    (getValidatedTypeByName fold ns name w).2.calls.countP p = w.calls.countP p := by
  cases h1 : (ns.cache.Get notificationTypeKey w.state).1 with
  | ok types =>
    rw [getValidatedTypeByName_hit fold ns name w types h1]
    simp [List.countP_append, hget]
  | error e =>
    cases h2 : (ns.repository.GetTypes (ns.cache.Get notificationTypeKey w.state).2).1 with
    | error err =>
      rw [getValidatedTypeByName_fetch_error fold ns name w e err h1 h2]
      simp [List.countP_append, List.countP_cons, hget, hfetch]
    | ok types =>
      rw [getValidatedTypeByName_fetch_ok fold ns name w e types h1 h2]
      simp [List.countP_append, List.countP_cons, hget, hfetch, hset]

theorem validateRateLimit_countP (notifType : NotifType) (userID : Int) (w : Run σ)
    (p : Call → Bool)
    (hquery : ∀ u n d, p (Call.getUserNotificationSinceDate u n d) = false) :
    (validateRateLimit ns notifType userID w).2.calls.countP p = w.calls.countP p := by
  rw [validateRateLimit_eq]
  simp [List.countP_append, hquery]

theorem Send_of_resolved (req : Request) (w w1 : Run σ) (t : NotifType)
    (hvalid : req.Validate = none)
    (hres : getValidatedTypeByName fold ns req.Typ w = (.ok t, w1)) :
    Send fold ns req w
      = (match validateRateLimit ns t req.UserID w1 with
        | (some err, w2) => (some err, w2)
        | (none, w2) =>
          match callGatewaySend ns req.UserID req.Message w2 with
          | (some err, w3) => (some err, w3)
          | (none, w3) => callSave ns t req.UserID w3) := by
  simp [Send, hvalid, hres]

theorem Send_of_unresolved (req : Request) (w w1 : Run σ) (err : Error)
    (hvalid : req.Validate = none)
    (hres : getValidatedTypeByName fold ns req.Typ w = (.error err, w1)) :
    Send fold ns req w = (some err, w1) := by
  simp [Send, hvalid, hres]

end equations

/-! ### Request validation -/

/-- C5. `Request.Validate` fails exactly when the message is blank after
trimming, the type is blank after trimming, or the user id is not positive; the
text of the failure is the messages of all the violated rules, in the order
message, type, user id, joined by newlines; and on the empty request it is the
three messages, one per line. -/
theorem Request_Validate_reports_every_violation (req : Request) :
    (req.Validate.isSome = true ↔
        (TrimSpace req.Message = "" ∨ TrimSpace req.Typ = "" ∨ req.UserID ≤ 0))
    ∧ req.Validate.map Error.Error
        = (if violatedRules req = [] then none else some (joinLines (violatedRules req)))
    ∧ (Request.mk "" "" 0).Validate.map Error.Error
        = some "message is required\ntype is required\nuser id is required" := by
  refine ⟨?_, ?_, by decide⟩
  · by_cases h1 : TrimSpace req.Message = "" <;> by_cases h2 : TrimSpace req.Typ = "" <;>
      by_cases h3 : req.UserID ≤ 0 <;>
      simp [Request.Validate, errorsJoin, h1, h2, h3]
  · by_cases h1 : TrimSpace req.Message = "" <;> by_cases h2 : TrimSpace req.Typ = "" <;>
      by_cases h3 : req.UserID ≤ 0 <;>
      simp [Request.Validate, errorsJoin, violatedRules, validationRules, h1, h2, h3,
        Error.Error]

/-! ### Rate-limit evaluation -/

/-- C2, the claim as stated fails: for a window of 9223372037 seconds the
`int64` product wraps, so at clock reading 0 the history is queried from
9223372036709551616 ns in the future instead of 9223372037 s in the past, and
a send is admitted although one record (dated 1 ns before) lies inside the
stated window and the limit is 1. -/
theorem validateRateLimit_window_wraps :
    (validateRateLimit (service okGateway coldCache) longWindow 1
        (start (repoOf longWindow [⟨1, 1, longWindow, -1⟩]) 0)).2.calls
      = [Call.getUserNotificationSinceDate 1 "STATUS" 9223372036709551616]
    ∧ (9223372036709551616 : Int) ≠ 0 - 1000000000 * longWindow.RateLimit
    ∧ (validateRateLimit (service okGateway coldCache) longWindow 1
        (start (repoOf longWindow [⟨1, 1, longWindow, -1⟩]) 0)).1 = none := by
  decide

/-- C2, amended: when `rateLimitSeconds * 10^9` fits a signed 64-bit count,
`validateRateLimit` makes exactly one history query, for the given user and the
type's name, with `startDate = now - rateLimitSeconds` seconds; and when that
query succeeds it returns `RateLimitError` if and only if the returned set is
non-empty and its size is at least `requestLimit`, and returns `nil` in every
other case. -/
theorem validateRateLimit_window_and_verdict {σ : Type} (ns : NotificationService σ)
    (t : NotifType) (userID : Int) (w : Run σ)
    (hlo : -9223372036854775808 < 1000000000 * t.RateLimit)
    (hhi : 1000000000 * t.RateLimit < 9223372036854775808) :
    (validateRateLimit ns t userID w).2.calls
      = w.calls ++ [Call.getUserNotificationSinceDate userID t.Name
          (ns.now w.state - 1000000000 * t.RateLimit)]
    ∧ ∀ notifications : Notifications,
        (ns.repository.GetUserNotificationSinceDate userID t.Name
          (ns.now w.state - 1000000000 * t.RateLimit) w.state).1 = .ok notifications →
        ((validateRateLimit ns t userID w).1 = some Error.RateLimitError ↔
            (notifications ≠ [] ∧ t.RequestLimit ≤ (notifications.length : Int)))
        ∧ (¬ (notifications ≠ [] ∧ t.RequestLimit ≤ (notifications.length : Int)) →
            (validateRateLimit ns t userID w).1 = none) := by
  have hstart := windowStart_of_fits (ns.now w.state) t hlo hhi
  rw [validateRateLimit_eq, hstart]
  refine ⟨rfl, ?_⟩
  intro notifications hq
  simp only [hq]
  by_cases hrej : notifications ≠ [] ∧ t.RequestLimit ≤ (notifications.length : Int)
  · simp [hrej]
  · simp [hrej]

/-- C2, amended, on the seeded `STATUS` type: with two records inside the 120 s
window the check rejects, and the query starts 120 s before the clock reading. -/
theorem validateRateLimit_window_and_verdict_witness :
    (-9223372036854775808 < 1000000000 * status.RateLimit
      ∧ 1000000000 * status.RateLimit < 9223372036854775808)
    ∧ (validateRateLimit (service okGateway coldCache) status 1
        (start (repoOf status [⟨1, 1, status, 1000⟩, ⟨2, 1, status, 2000⟩]) 3000)).2.calls
      = [] ++ [Call.getUserNotificationSinceDate 1 "STATUS" (3000 - 1000000000 * 120)]
    ∧ (validateRateLimit (service okGateway coldCache) status 1
        (start (repoOf status [⟨1, 1, status, 1000⟩, ⟨2, 1, status, 2000⟩]) 3000)).1
      = some Error.RateLimitError :=
  ⟨by decide,
    (validateRateLimit_window_and_verdict (service okGateway coldCache) status 1
      (start (repoOf status [⟨1, 1, status, 1000⟩, ⟨2, 1, status, 2000⟩]) 3000)
      (by decide) (by decide)).1,
    ((validateRateLimit_window_and_verdict (service okGateway coldCache) status 1
      (start (repoOf status [⟨1, 1, status, 1000⟩, ⟨2, 1, status, 2000⟩]) 3000)
      (by decide) (by decide)).2 [⟨2, 1, status, 2000⟩, ⟨1, 1, status, 1000⟩] rfl).1.2
      (by decide)⟩

/-! ### Type resolution through the cache -/

/-- C9. On a warm cache (`cache.Get` succeeds with the set `types`)
`getValidatedTypeByName` invokes the cache read and nothing else (no registry
fetch, no cache write), its result is the existence test on the search of
`types` alone, and a name that no element of `types` folds to is reported as
not found whatever the registry holds. -/
theorem getValidatedTypeByName_warm {σ : Type} (fold : Char → Char)
    (ns : NotificationService σ) (name : String) (w : Run σ) (types : Types)
    (hget : (ns.cache.Get notificationTypeKey w.state).1 = .ok types) :
    (getValidatedTypeByName fold ns name w).2.calls
      = w.calls ++ [Call.cacheGet notificationTypeKey]
    ∧ (getValidatedTypeByName fold ns name w).2.state
      = (ns.cache.Get notificationTypeKey w.state).2
    ∧ (getValidatedTypeByName fold ns name w).1
      = checkExists name (GetByName fold types name)
    ∧ ((∀ t ∈ types, EqualFold fold t.Name name = false) →
        (getValidatedTypeByName fold ns name w).1
          = .error (.errorString ("notification type '" ++ name ++ "' not found or disabled"))) := by
  rw [getValidatedTypeByName_hit fold ns name w types hget]
  refine ⟨rfl, rfl, rfl, ?_⟩
  intro habsent
  simp [GetByName_of_no_match fold types name habsent, checkExists, NotifType.zero,
    NotifType.Exists]

/-- C9 on a cache that holds only `NEWS` while the seeded registry holds an
enabled `STATUS`: the lookup of `STATUS` reads the cache once and reports not
found. -/
theorem getValidatedTypeByName_warm_witness :
    ((service okGateway (warmCache [⟨2, "NEWS", 86400, 1, true⟩])).cache.Get
        notificationTypeKey (start NewNotificationMemoryRepo 0).state).1
      = .ok [⟨2, "NEWS", 86400, 1, true⟩]
    ∧ status ∈ NewNotificationMemoryRepo.GetTypes
    ∧ (getValidatedTypeByName Char.toLower
        (service okGateway (warmCache [⟨2, "NEWS", 86400, 1, true⟩])) "STATUS"
        (start NewNotificationMemoryRepo 0)).2.calls = [] ++ [Call.cacheGet "notification_types"]
    ∧ (getValidatedTypeByName Char.toLower
        (service okGateway (warmCache [⟨2, "NEWS", 86400, 1, true⟩])) "STATUS"
        (start NewNotificationMemoryRepo 0)).1
      = .error (.errorString "notification type 'STATUS' not found or disabled") :=
  ⟨rfl, by decide,
    (getValidatedTypeByName_warm Char.toLower
      (service okGateway (warmCache [⟨2, "NEWS", 86400, 1, true⟩])) "STATUS"
      (start NewNotificationMemoryRepo 0) [⟨2, "NEWS", 86400, 1, true⟩] rfl).1,
    (getValidatedTypeByName_warm Char.toLower
      (service okGateway (warmCache [⟨2, "NEWS", 86400, 1, true⟩])) "STATUS"
      (start NewNotificationMemoryRepo 0) [⟨2, "NEWS", 86400, 1, true⟩] rfl).2.2.2
      (by decide)⟩

/-- C10, the claim as stated fails: on a cold cache whose write is refused, the
lookup of `STATUS` fetches the registry and writes the cache, but then returns
the write's error instead of resolving the name in the fetched set, where
`STATUS` is present. -/
theorem getValidatedTypeByName_cold_write_refused :
    (getValidatedTypeByName Char.toLower (service okGateway failSetCache) "STATUS"
        (start NewNotificationMemoryRepo 0)).1 = .error (.external 1 "set_cache_err")
    ∧ (getValidatedTypeByName Char.toLower (service okGateway failSetCache) "STATUS"
        (start NewNotificationMemoryRepo 0)).2.calls
      = [Call.cacheGet "notification_types", Call.getTypes,
          Call.cacheSet "notification_types" NewNotificationMemoryRepo.GetTypes hour]
    ∧ checkExists "STATUS" (GetByName Char.toLower NewNotificationMemoryRepo.GetTypes "STATUS")
      = .ok status := by
  refine ⟨rfl, rfl, rfl⟩

/-- C10, amended: when `cache.Get` fails, its error is dropped and exactly one
`repository.GetTypes` call follows; if that call fails its error is returned
and nothing else is invoked; if it succeeds, exactly one `cache.Set` of the
fetched set under the key "notification_types" with the configured TTL follows,
and then, when that write succeeds, the name is resolved by searching the
fetched set, while a failed write has its error returned instead. -/
theorem getValidatedTypeByName_cold {σ : Type} (fold : Char → Char)
    (ns : NotificationService σ) (name : String) (w : Run σ) (e : Error)
    (hget : (ns.cache.Get notificationTypeKey w.state).1 = .error e) :
    (∀ err, (ns.repository.GetTypes (ns.cache.Get notificationTypeKey w.state).2).1
          = .error err →
        (getValidatedTypeByName fold ns name w).1 = .error err
        ∧ (getValidatedTypeByName fold ns name w).2.calls
          = w.calls ++ [Call.cacheGet "notification_types", Call.getTypes])
    ∧ (∀ types, (ns.repository.GetTypes (ns.cache.Get notificationTypeKey w.state).2).1
          = .ok types →
        (getValidatedTypeByName fold ns name w).2.calls
          = w.calls ++ [Call.cacheGet "notification_types", Call.getTypes,
              Call.cacheSet "notification_types" types ns.ttl]
        ∧ ((ns.cache.Set notificationTypeKey types ns.ttl
              (ns.repository.GetTypes (ns.cache.Get notificationTypeKey w.state).2).2).1 = none →
            (getValidatedTypeByName fold ns name w).1
              = checkExists name (GetByName fold types name))
        ∧ (∀ err, (ns.cache.Set notificationTypeKey types ns.ttl
              (ns.repository.GetTypes (ns.cache.Get notificationTypeKey w.state).2).2).1
              = some err →
            (getValidatedTypeByName fold ns name w).1 = .error err)) := by
  refine ⟨?_, ?_⟩
  · intro err hfetch
    rw [getValidatedTypeByName_fetch_error fold ns name w e err hget hfetch]
    exact ⟨rfl, rfl⟩
  · intro types hfetch
    rw [getValidatedTypeByName_fetch_ok fold ns name w e types hget hfetch]
    refine ⟨rfl, ?_, ?_⟩
    · intro hset
      simp only [hset]
    · intro err hset
      simp only [hset]

/-- C10, amended, on a cold cache that accepts the write: the lookup of
`status` in the seeded registry makes the three calls in order and resolves
the type. -/
theorem getValidatedTypeByName_cold_witness :
    ((service okGateway coldCache).cache.Get notificationTypeKey
        (start NewNotificationMemoryRepo 0).state).1 = .error (.external 0 "key not found")
    ∧ (getValidatedTypeByName Char.toLower (service okGateway coldCache) "status"
        (start NewNotificationMemoryRepo 0)).2.calls
      = [] ++ [Call.cacheGet "notification_types", Call.getTypes,
          Call.cacheSet "notification_types" NewNotificationMemoryRepo.GetTypes hour]
    ∧ (getValidatedTypeByName Char.toLower (service okGateway coldCache) "status"
        (start NewNotificationMemoryRepo 0)).1
      = checkExists "status" (GetByName Char.toLower NewNotificationMemoryRepo.GetTypes "status") :=
  ⟨rfl,
    ((getValidatedTypeByName_cold Char.toLower (service okGateway coldCache) "status"
      (start NewNotificationMemoryRepo 0) (.external 0 "key not found") rfl).2
        NewNotificationMemoryRepo.GetTypes rfl).1,
    ((getValidatedTypeByName_cold Char.toLower (service okGateway coldCache) "status"
      (start NewNotificationMemoryRepo 0) (.external 0 "key not found") rfl).2
        NewNotificationMemoryRepo.GetTypes rfl).2.1 rfl⟩

/-! ### Orchestration: rejected and unresolved requests -/

/-- C7, the claim as stated fails in "distinguishable from every other
failure": on the seeded registry with an empty history the rate-limit check
admits the `STATUS` request of user 1, the gateway is invoked and fails with
the sentinel `RateLimitError`, and `Send` returns that sentinel as it is, so a
failed dispatch is handed to the caller as the very value of a rate-limit
rejection. -/
theorem Send_sentinel_from_dispatch :
    statusRequest.Validate = none
    ∧ (validateRateLimit (service sentinelGateway coldCache) status 1
        (getValidatedTypeByName Char.toLower (service sentinelGateway coldCache) "STATUS"
          (start NewNotificationMemoryRepo 0)).2).1 = none
    ∧ (Send Char.toLower (service sentinelGateway coldCache) statusRequest
        (start NewNotificationMemoryRepo 0)).1 = some Error.RateLimitError
    ∧ (Send Char.toLower (service sentinelGateway coldCache) statusRequest
        (start NewNotificationMemoryRepo 0)).2.calls.countP Call.isGatewaySend = 1
    ∧ (Send Char.toLower (service sentinelGateway coldCache) statusRequest
        (start NewNotificationMemoryRepo 0)).2.calls.countP Call.isSave = 0 := by
  decide

/-- C7, amended: for a valid request whose type resolves to `t` and whose
history query returns a non-empty set of at least `requestLimit` records,
`Send` returns the sentinel `RateLimitError`, and it invokes neither
`gateway.Send` nor `repository.Save`; the sentinel differs from every failure
the core builds itself (a validation failure, a type not found). The errors
that collaborators return are not covered: they may be any value. -/
theorem Send_rate_limited {σ : Type} (fold : Char → Char) (ns : NotificationService σ)
    (req : Request) (w w1 : Run σ) (t : NotifType) (notifications : Notifications)
    (hvalid : req.Validate = none)
    (hres : getValidatedTypeByName fold ns req.Typ w = (.ok t, w1))
    (hquery : (ns.repository.GetUserNotificationSinceDate req.UserID t.Name
      (windowStart (ns.now w1.state) t) w1.state).1 = .ok notifications)
    (hrej : notifications ≠ [] ∧ t.RequestLimit ≤ (notifications.length : Int)) :
    (Send fold ns req w).1 = some Error.RateLimitError
    ∧ (Send fold ns req w).2.calls.countP Call.isGatewaySend
      = w.calls.countP Call.isGatewaySend
    ∧ (Send fold ns req w).2.calls.countP Call.isSave = w.calls.countP Call.isSave
    ∧ (∀ r : Request, r.Validate ≠ some Error.RateLimitError)
    ∧ (∀ (name : String) (u : NotifType), checkExists name u ≠ .error Error.RateLimitError) := by
  have hw1 : w1 = (getValidatedTypeByName fold ns req.Typ w).2 := by rw [hres]
  have hsend : Send fold ns req w
      = (some Error.RateLimitError,
          ⟨(ns.repository.GetUserNotificationSinceDate req.UserID t.Name
              (windowStart (ns.now w1.state) t) w1.state).2,
            w1.calls ++ [Call.getUserNotificationSinceDate req.UserID t.Name
              (windowStart (ns.now w1.state) t)]⟩) := by
    rw [Send_of_resolved fold ns req w w1 t hvalid hres, validateRateLimit_eq]
    simp [hquery, hrej]
  refine ⟨by rw [hsend], ?_, ?_, ?_, ?_⟩
  · rw [hsend]
    simp only [List.countP_append]
    rw [hw1, getValidatedTypeByName_countP fold ns req.Typ w Call.isGatewaySend
      (fun _ => rfl) rfl (fun _ _ _ => rfl)]
    simp [Call.isGatewaySend]
  · rw [hsend]
    simp only [List.countP_append]
    rw [hw1, getValidatedTypeByName_countP fold ns req.Typ w Call.isSave
      (fun _ => rfl) rfl (fun _ _ _ => rfl)]
    simp [Call.isSave]
  · intro r
    unfold Request.Validate errorsJoin
    split <;> simp
  · intro name u
    unfold checkExists
    split <;> simp

/-- C7, amended, on the seeded `STATUS` type with two sends recorded inside the
window: the third send is rejected with the sentinel and only the cache, the
registry and the history are consulted. -/
theorem Send_rate_limited_witness :
    (Request.mk "status" "hi" 1).Validate = none
    ∧ (Send Char.toLower (service okGateway coldCache) ⟨"status", "hi", 1⟩
        (start ⟨[⟨1, 1, status, 1000⟩, ⟨2, 1, status, 2000⟩],
          NewNotificationMemoryRepo.types⟩ 3000)).1 = some Error.RateLimitError
    ∧ (Send Char.toLower (service okGateway coldCache) ⟨"status", "hi", 1⟩
        (start ⟨[⟨1, 1, status, 1000⟩, ⟨2, 1, status, 2000⟩],
          NewNotificationMemoryRepo.types⟩ 3000)).2.calls.countP Call.isSave
      = List.countP Call.isSave [] :=
  ⟨by decide,
    (Send_rate_limited Char.toLower (service okGateway coldCache) ⟨"status", "hi", 1⟩
      (start ⟨[⟨1, 1, status, 1000⟩, ⟨2, 1, status, 2000⟩],
        NewNotificationMemoryRepo.types⟩ 3000)
      (getValidatedTypeByName Char.toLower (service okGateway coldCache) "status"
        (start ⟨[⟨1, 1, status, 1000⟩, ⟨2, 1, status, 2000⟩],
          NewNotificationMemoryRepo.types⟩ 3000)).2
      status [⟨2, 1, status, 2000⟩, ⟨1, 1, status, 1000⟩]
      (by decide) rfl rfl (by decide)).1,
    (Send_rate_limited Char.toLower (service okGateway coldCache) ⟨"status", "hi", 1⟩
      (start ⟨[⟨1, 1, status, 1000⟩, ⟨2, 1, status, 2000⟩],
        NewNotificationMemoryRepo.types⟩ 3000)
      (getValidatedTypeByName Char.toLower (service okGateway coldCache) "status"
        (start ⟨[⟨1, 1, status, 1000⟩, ⟨2, 1, status, 2000⟩],
          NewNotificationMemoryRepo.types⟩ 3000)).2
      status [⟨2, 1, status, 2000⟩, ⟨1, 1, status, 1000⟩]
      (by decide) rfl rfl (by decide)).2.2.1⟩

/-- C8, the claim as stated fails: the request names `nope`, which no type of
the set fetched from the registry matches, yet on a cold cache whose write is
refused `Send` fails with the write's error text, not with the not-found
text. -/
theorem Send_unknown_type_write_refused :
    (Request.mk "nope" "hi" 1).Validate = none
    ∧ (∀ t ∈ NewNotificationMemoryRepo.GetTypes, EqualFold Char.toLower t.Name "nope" = false)
    ∧ (Send Char.toLower (service okGateway failSetCache) ⟨"nope", "hi", 1⟩
        (start NewNotificationMemoryRepo 0)).1.map Error.Error = some "set_cache_err"
    ∧ (Send Char.toLower (service okGateway failSetCache) ⟨"nope", "hi", 1⟩
        (start NewNotificationMemoryRepo 0)).1.map Error.Error
      ≠ some "notification type 'nope' not found or disabled" := by
  decide

/-- C8, amended: for a valid request, when the set of types is read from the
cache, or is fetched from the registry on a cache miss and then written to the
cache successfully, and the first element of that set matching the requested
name case-insensitively is absent or has id 0, `Send` fails with the text
"notification type '<name>' not found or disabled", `<name>` being the
requested type as given, and makes no history query, no dispatch and no
save. -/
theorem Send_type_not_found {σ : Type} (fold : Char → Char) (ns : NotificationService σ)
    (req : Request) (w : Run σ) (types : Types)
    (hvalid : req.Validate = none)
    (hset : (ns.cache.Get notificationTypeKey w.state).1 = .ok types
      ∨ ((∃ e, (ns.cache.Get notificationTypeKey w.state).1 = .error e)
        ∧ (ns.repository.GetTypes (ns.cache.Get notificationTypeKey w.state).2).1 = .ok types
        ∧ (ns.cache.Set notificationTypeKey types ns.ttl
            (ns.repository.GetTypes (ns.cache.Get notificationTypeKey w.state).2).2).1 = none))
    (hnone : ∀ t, types.find? (fun t => EqualFold fold t.Name req.Typ) = some t → t.ID = 0) :
    (Send fold ns req w).1.map Error.Error
      = some ("notification type '" ++ req.Typ ++ "' not found or disabled")
    ∧ (Send fold ns req w).2.calls.countP Call.isHistoryQuery
      = w.calls.countP Call.isHistoryQuery
    ∧ (Send fold ns req w).2.calls.countP Call.isGatewaySend
      = w.calls.countP Call.isGatewaySend
    ∧ (Send fold ns req w).2.calls.countP Call.isSave = w.calls.countP Call.isSave := by
  have hid : (GetByName fold types req.Typ).ID = 0 := by
    rw [GetByName_eq_find]
    cases hfind : types.find? (fun t => EqualFold fold t.Name req.Typ) with
    | none => rfl
    | some t => simpa using hnone t hfind
  have hcheck : checkExists req.Typ (GetByName fold types req.Typ)
      = .error (.errorString ("notification type '" ++ req.Typ ++ "' not found or disabled")) := by
    simp [checkExists, NotifType.Exists, hid]
  have hres : (getValidatedTypeByName fold ns req.Typ w).1
      = .error (.errorString ("notification type '" ++ req.Typ ++ "' not found or disabled")) := by
    rcases hset with hhit | ⟨⟨e, hmiss⟩, hfetch, hwrite⟩
    · rw [getValidatedTypeByName_hit fold ns req.Typ w types hhit]
      exact hcheck
    · rw [getValidatedTypeByName_fetch_ok fold ns req.Typ w e types hmiss hfetch]
      simp only [hwrite]
      exact hcheck
  have hsend : Send fold ns req w
      = (some (.errorString ("notification type '" ++ req.Typ ++ "' not found or disabled")),
          (getValidatedTypeByName fold ns req.Typ w).2) :=
    Send_of_unresolved fold ns req w _ _ hvalid (Prod.ext hres rfl)
  rw [hsend]
  refine ⟨rfl, ?_, ?_, ?_⟩
  · exact getValidatedTypeByName_countP fold ns req.Typ w _ (fun _ => rfl) rfl (fun _ _ _ => rfl)
  · exact getValidatedTypeByName_countP fold ns req.Typ w _ (fun _ => rfl) rfl (fun _ _ _ => rfl)
  · exact getValidatedTypeByName_countP fold ns req.Typ w _ (fun _ => rfl) rfl (fun _ _ _ => rfl)

/-- C8, amended, on the seeded registry behind a cold cache that accepts the
write: a send of type `nope` fails with the not-found text and queries no
history. -/
theorem Send_type_not_found_witness :
    (Request.mk "nope" "hi" 1).Validate = none
    ∧ (∀ t, NewNotificationMemoryRepo.GetTypes.find?
          (fun t => EqualFold Char.toLower t.Name "nope") = some t → t.ID = 0)
    ∧ (Send Char.toLower (service okGateway coldCache) ⟨"nope", "hi", 1⟩
        (start NewNotificationMemoryRepo 0)).1.map Error.Error
      = some ("notification type '" ++ "nope" ++ "' not found or disabled")
    ∧ (Send Char.toLower (service okGateway coldCache) ⟨"nope", "hi", 1⟩
        (start NewNotificationMemoryRepo 0)).2.calls.countP Call.isHistoryQuery
      = List.countP Call.isHistoryQuery [] :=
  have hnone : ∀ t, NewNotificationMemoryRepo.GetTypes.find?
      (fun t => EqualFold Char.toLower t.Name "nope") = some t → t.ID = 0 := by
    intro t ht
    have hfind : NewNotificationMemoryRepo.GetTypes.find?
        (fun t => EqualFold Char.toLower t.Name "nope") = none := by decide
    rw [hfind] at ht
    cases ht
  ⟨by decide, hnone,
    (Send_type_not_found Char.toLower (service okGateway coldCache) ⟨"nope", "hi", 1⟩
      (start NewNotificationMemoryRepo 0) NewNotificationMemoryRepo.GetTypes (by decide)
      (Or.inr ⟨⟨_, rfl⟩, rfl, rfl⟩) hnone).1,
    (Send_type_not_found Char.toLower (service okGateway coldCache) ⟨"nope", "hi", 1⟩
      (start NewNotificationMemoryRepo 0) NewNotificationMemoryRepo.GetTypes (by decide)
      (Or.inr ⟨⟨_, rfl⟩, rfl, rfl⟩) hnone).2.1⟩

/-! ### The in-memory repository under the core -/

section memory
variable {τ : Type} (fold : Char → Char) (gateway : Sender τ) (cache : Cacher τ)
  (ttl : Duration) (now : τ → Time)

theorem memory_getValidatedTypeByName_repo (name : String) (w : Run (memoryRepo × τ)) :
    (getValidatedTypeByName fold (memoryService fold gateway cache ttl now) name w).2.state.1
      = w.state.1 := by
  cases h1 : ((memoryService fold gateway cache ttl now).cache.Get notificationTypeKey
      w.state).1 with
  | ok types =>
    rw [getValidatedTypeByName_hit fold _ name w types h1]
    rfl
  | error e =>
    cases h2 : ((memoryService fold gateway cache ttl now).repository.GetTypes
        ((memoryService fold gateway cache ttl now).cache.Get notificationTypeKey
          w.state).2).1 with
    | error err =>
      rw [getValidatedTypeByName_fetch_error fold _ name w e err h1 h2]
      rfl
    | ok types =>
      rw [getValidatedTypeByName_fetch_ok fold _ name w e types h1 h2]
      rfl

theorem memory_validateRateLimit (t : NotifType) (userID : Int) (w : Run (memoryRepo × τ)) :
    validateRateLimit (memoryService fold gateway cache ttl now) t userID w
      = ((if w.state.1.GetUserNotificationSinceDate fold userID t.Name
              (windowStart (now w.state.2) t) ≠ []
            ∧ t.RequestLimit ≤ ((w.state.1.GetUserNotificationSinceDate fold userID t.Name
              (windowStart (now w.state.2) t)).length : Int)
          then some Error.RateLimitError else none),
          ⟨w.state, w.calls ++ [Call.getUserNotificationSinceDate userID t.Name
            (windowStart (now w.state.2) t)]⟩) := by
  rw [validateRateLimit_eq]
  rfl

theorem memory_Send_dispatch_failed (req : Request) (w w1 w2 : Run (memoryRepo × τ))
    (t : NotifType) (e : Error) (hvalid : req.Validate = none)
    (hres : getValidatedTypeByName fold (memoryService fold gateway cache ttl now) req.Typ w
      = (.ok t, w1))
    (hlimit : validateRateLimit (memoryService fold gateway cache ttl now) t req.UserID w1
      = (none, w2))
    (hsend : (gateway.Send req.UserID req.Message w2.state.2).1 = some e) :
    (Send fold (memoryService fold gateway cache ttl now) req w).1 = some e
    ∧ (Send fold (memoryService fold gateway cache ttl now) req w).2.state.1 = w.state.1 := by
  have hw1 : w1.state.1 = w.state.1 := by
    have h := memory_getValidatedTypeByName_repo fold gateway cache ttl now req.Typ w
    rw [hres] at h
    exact h
  have hw2 : w2.state = w1.state := by
    have h := congrArg (fun r => r.2.state) hlimit
    rw [memory_validateRateLimit] at h
    exact h.symm
  rw [Send_of_resolved fold _ req w w1 t hvalid hres, hlimit]
  have hgw : ((memoryService fold gateway cache ttl now).gateway.Send req.UserID req.Message
      w2.state).1 = some e := hsend
  simp only [callGatewaySend, hgw]
  refine ⟨trivial, ?_⟩
  show w2.state.1 = w.state.1
  rw [hw2, hw1]

end memory

/-! ### Orchestration: when a record is saved -/

/-- C6. `Send` invokes `repository.Save` exactly once, as its last step and
returning its result, when validation, type resolution, the rate-limit check
and `gateway.Send` all succeed; it never invokes it when any of the four fails;
when `gateway.Send` fails, `Send` returns that error; and over the in-memory
repository a failed dispatch leaves the repository, hence the history, exactly
as it was before the call. -/
theorem Send_saves_exactly_when_dispatched {σ τ : Type} (fold : Char → Char)
    (ns : NotificationService σ) (req : Request) (w : Run σ)
    (gateway : Sender τ) (cache : Cacher τ) (ttl : Duration) (now : τ → Time)
    (m : Run (memoryRepo × τ)) :
    (∀ t w1 w2, req.Validate = none →
        getValidatedTypeByName fold ns req.Typ w = (.ok t, w1) →
        validateRateLimit ns t req.UserID w1 = (none, w2) →
        (ns.gateway.Send req.UserID req.Message w2.state).1 = none →
        (Send fold ns req w).2.calls.countP Call.isSave = w.calls.countP Call.isSave + 1
        ∧ (Send fold ns req w).2.calls.getLast? = some (Call.save t req.UserID)
        ∧ (Send fold ns req w).1
          = (ns.repository.Save t req.UserID
              (ns.gateway.Send req.UserID req.Message w2.state).2).1)
    ∧ (∀ e, req.Validate = some e →
        (Send fold ns req w).2.calls.countP Call.isSave = w.calls.countP Call.isSave)
    ∧ (∀ e w1, req.Validate = none →
        getValidatedTypeByName fold ns req.Typ w = (.error e, w1) →
        (Send fold ns req w).2.calls.countP Call.isSave = w.calls.countP Call.isSave)
    ∧ (∀ t w1 e w2, req.Validate = none →
        getValidatedTypeByName fold ns req.Typ w = (.ok t, w1) →
        validateRateLimit ns t req.UserID w1 = (some e, w2) →
        (Send fold ns req w).2.calls.countP Call.isSave = w.calls.countP Call.isSave)
    ∧ (∀ t w1 w2 e, req.Validate = none →
        getValidatedTypeByName fold ns req.Typ w = (.ok t, w1) →
        validateRateLimit ns t req.UserID w1 = (none, w2) →
        (ns.gateway.Send req.UserID req.Message w2.state).1 = some e →
        (Send fold ns req w).1 = some e
        ∧ (Send fold ns req w).2.calls.countP Call.isSave = w.calls.countP Call.isSave)
    ∧ (∀ t m1 m2 e, req.Validate = none →
        getValidatedTypeByName fold (memoryService fold gateway cache ttl now) req.Typ m
          = (.ok t, m1) →
        validateRateLimit (memoryService fold gateway cache ttl now) t req.UserID m1
          = (none, m2) →
        (gateway.Send req.UserID req.Message m2.state.2).1 = some e →
        (Send fold (memoryService fold gateway cache ttl now) req m).1 = some e
        ∧ (Send fold (memoryService fold gateway cache ttl now) req m).2.state.1 = m.state.1) := by
  have hres_count : ∀ (r : Except Error NotifType) (w1 : Run σ),
      getValidatedTypeByName fold ns req.Typ w = (r, w1) →
      w1.calls.countP Call.isSave = w.calls.countP Call.isSave := by
    intro r w1 h
    have hc := getValidatedTypeByName_countP fold ns req.Typ w Call.isSave
      (fun _ => rfl) rfl (fun _ _ _ => rfl)
    rw [h] at hc
    exact hc
  have hlimit_count : ∀ (t : NotifType) (r : Option Error) (w1 w2 : Run σ),
      validateRateLimit ns t req.UserID w1 = (r, w2) →
      w2.calls.countP Call.isSave = w1.calls.countP Call.isSave := by
    intro t r w1 w2 h
    have hc := validateRateLimit_countP ns t req.UserID w1 Call.isSave (fun _ _ _ => rfl)
    rw [h] at hc
    exact hc
  refine ⟨?_, ?_, ?_, ?_, ?_, ?_⟩
  · intro t w1 w2 hvalid hres hlimit hsend
    rw [Send_of_resolved fold ns req w w1 t hvalid hres, hlimit]
    simp only [callGatewaySend, hsend, callSave]
    refine ⟨?_, ?_, trivial⟩
    · simp [List.countP_append, Call.isSave, hlimit_count t none w1 w2 hlimit,
        hres_count _ w1 hres]
    · simp
  · intro e hvalid
    simp [Send, hvalid]
  · intro e w1 hvalid hres
    rw [Send_of_unresolved fold ns req w w1 e hvalid hres]
    exact hres_count _ w1 hres
  · intro t w1 e w2 hvalid hres hlimit
    rw [Send_of_resolved fold ns req w w1 t hvalid hres, hlimit]
    simp only
    rw [hlimit_count t (some e) w1 w2 hlimit, hres_count _ w1 hres]
  · intro t w1 w2 e hvalid hres hlimit hsend
    rw [Send_of_resolved fold ns req w w1 t hvalid hres, hlimit]
    simp only [callGatewaySend, hsend]
    refine ⟨trivial, ?_⟩
    simp [List.countP_append, Call.isSave, hlimit_count t none w1 w2 hlimit,
      hres_count _ w1 hres]
  · intro t m1 m2 e hvalid hres hlimit hsend
    exact memory_Send_dispatch_failed fold gateway cache ttl now req m m1 m2 t e hvalid hres
      hlimit hsend

/-! ### The rolling window over the in-memory history -/

theorem wrapInt64_neg_wrapInt64_ge (d : Int) (hlo : -9223372036854775808 < d) :
    -d ≤ wrapInt64 (-(wrapInt64 d)) := by
  unfold wrapInt64
  omega

theorem windowStart_ge (now : Time) (t : NotifType)
    (hlo : -9223372036854775808 ≤ 1000000000 * t.RateLimit) :
    now - 1000000000 * t.RateLimit ≤ windowStart now t := by
  have hd : -9223372036854775808 < 1000000000 * t.RateLimit := by omega
  have hwrap := wrapInt64_neg_wrapInt64_ge (1000000000 * t.RateLimit) hd
  have hsum : windowStart now t
      = now + wrapInt64 (-(wrapInt64 (1000000000 * t.RateLimit))) := rfl
  rw [hsum]
  linarith

theorem sinceDateLoop_eq (fold : Char → Char) (userID : Int) (ntype : String)
    (startDate : Time) (notifications : Notifications) (k : Nat)
    (hk : k ≤ notifications.length) (data : Notifications) :
    sinceDateLoop fold userID ntype startDate notifications k data
      = data ++ ((notifications.take k).filter
          (matchesSince fold userID ntype startDate)).reverse := by
  induction k generalizing data with
  | zero => simp [sinceDateLoop]
  | succ i ih =>
    have hi : i < notifications.length := hk
    have hget : notifications[i]? = some notifications[i] := List.getElem?_eq_getElem hi
    have htake : notifications.take (i + 1) = notifications.take i ++ [notifications[i]] := by
      rw [List.take_succ, hget]
      rfl
    rw [sinceDateLoop, hget]
    by_cases hmatch : matchesSince fold userID ntype startDate notifications[i] = true
    · simp only [hmatch, if_true]
      rw [ih (Nat.le_of_lt hi), htake, List.filter_append]
      simp [List.filter, hmatch]
    · have hfalse : matchesSince fold userID ntype startDate notifications[i] = false := by
        simpa using hmatch
      simp only [hfalse]
      rw [htake, List.filter_append]
      simp [List.filter, hfalse, ih (Nat.le_of_lt hi)]

theorem memoryRepo_query_eq (fold : Char → Char) (r : memoryRepo) (userID : Int)
    (ntype : String) (startDate : Time) :
    r.GetUserNotificationSinceDate fold userID ntype startDate
      = (r.notifications.filter (matchesSince fold userID ntype startDate)).reverse := by
  unfold memoryRepo.GetUserNotificationSinceDate
  split
  · rename_i hempty
    rw [List.length_eq_zero.mp hempty]
    rfl
  · rw [sinceDateLoop_eq fold userID ntype startDate r.notifications _ (le_refl _)]
    simp

theorem memoryRepo_query_length (fold : Char → Char) (r : memoryRepo) (userID : Int)
    (ntype : String) (startDate : Time) :
    (r.GetUserNotificationSinceDate fold userID ntype startDate).length
      = r.notifications.countP (matchesSince fold userID ntype startDate) := by
  rw [memoryRepo_query_eq, List.length_reverse, List.countP_eq_length_filter]

theorem countP_lt_of_excluded {α : Type} (p q : α → Bool) (l : List α) (a : α)
    (hpq : ∀ x ∈ l, p x = true → q x = true) (ha : a ∈ l) (hqa : q a = true)
    (hpa : p a = false) : l.countP p < l.countP q := by
  induction l with
  | nil => cases ha
  | cons x rest ih =>
    have hrest : rest.countP p ≤ rest.countP q :=
      List.countP_mono_left (fun y hy => hpq y (List.mem_cons_of_mem _ hy))
    rcases List.mem_cons.mp ha with hax | harest
    · subst hax
      simp only [List.countP_cons, hqa, hpa]
      simp
      omega
    · have hlt := ih (fun y hy => hpq y (List.mem_cons_of_mem _ hy)) harest
      have hx := hpq x (List.mem_cons_self _ _)
      simp only [List.countP_cons]
      by_cases hp : p x = true
      · simp [hp, hx hp]
        omega
      · by_cases hq : q x = true
        · simp [hp, hq]
          omega
        · simp [hp, hq]
          omega

section memory
variable {τ : Type} (fold : Char → Char) (gateway : Sender τ) (cache : Cacher τ)
  (ttl : Duration) (now : τ → Time)

theorem memory_Send_of_resolved (req : Request) (w w1 : Run (memoryRepo × τ)) (t : NotifType)
    (hvalid : req.Validate = none)
    (hres : getValidatedTypeByName fold (memoryService fold gateway cache ttl now) req.Typ w
      = (.ok t, w1)) :
    Send fold (memoryService fold gateway cache ttl now) req w
      = (if w.state.1.GetUserNotificationSinceDate fold req.UserID t.Name
              (windowStart (now w1.state.2) t) ≠ []
            ∧ t.RequestLimit ≤ ((w.state.1.GetUserNotificationSinceDate fold req.UserID t.Name
              (windowStart (now w1.state.2) t)).length : Int)
          then (some Error.RateLimitError,
            ⟨w1.state, w1.calls ++ [Call.getUserNotificationSinceDate req.UserID t.Name
              (windowStart (now w1.state.2) t)]⟩)
          else
            match callGatewaySend (memoryService fold gateway cache ttl now) req.UserID
              req.Message ⟨w1.state, w1.calls ++ [Call.getUserNotificationSinceDate req.UserID
                t.Name (windowStart (now w1.state.2) t)]⟩ with
            | (some err, w3) => (some err, w3)
            | (none, w3) => callSave (memoryService fold gateway cache ttl now) t req.UserID w3) := by
  have hw1 : w1.state.1 = w.state.1 := by
    have h := memory_getValidatedTypeByName_repo fold gateway cache ttl now req.Typ w
    rw [hres] at h
    exact h
  rw [Send_of_resolved fold _ req w w1 t hvalid hres, memory_validateRateLimit, hw1]
  split_ifs
  · rfl
  · simp only []
    generalize callGatewaySend (memoryService fold gateway cache ttl now) req.UserID
      req.Message _ = sent
    rcases sent with ⟨_ | err, w3⟩ <;> rfl

end memory

/-! ### Rate limiting over the in-memory history -/

/-- C1, the claim as stated fails in three ways. With `requestLimit = 0` and no
send recorded, the send is admitted (the check leaves an empty result alone).
With a window of 9223372037 s, whose nanosecond count wraps, and one send
recorded 1 ns earlier under a limit of 1, the send is admitted. With the
seeded `STATUS` limits (2 per 120 s) and sends recorded at 0 s and 10 s, the
send at exactly 120 s, the closing instant of the span that starts with the
oldest send, is admitted. -/
theorem Send_admitted_despite_full_span :
    (Send Char.toLower (service okGateway coldCache) statusRequest
        (start (repoOf zeroLimit []) 0)).1 = none
    ∧ (Send Char.toLower (service okGateway coldCache) statusRequest
        (start (repoOf longWindow [⟨1, 1, longWindow, 0⟩]) 1)).1 = none
    ∧ (Send Char.toLower (service okGateway coldCache) statusRequest
        (start (repoOf status [⟨1, 1, status, 0⟩, ⟨2, 1, status, 10000000000⟩])
          120000000000)).1 = none := by
  decide

/-- C1, amended: for a type with `requestLimit = N ≥ 1` and
`rateLimitSeconds = W` with `W * 10^9 < 2^63`, every user and every history of
the in-memory repository: once `N` records for that user and type are stored
with dates in a span `[s, s + W s)`, a valid `Send` for the same user that
resolves to that type with the clock inside the same span `[s, s + W s)` is
rejected with `RateLimitError`. -/
theorem Send_rejects_inside_span {τ : Type} (fold : Char → Char) (gateway : Sender τ)
    (cache : Cacher τ) (ttl : Duration) (now : τ → Time) (req : Request)
    (w w1 : Run (memoryRepo × τ)) (t : NotifType) (s : Time) (sent : Notifications)
    (hvalid : req.Validate = none)
    (hres : getValidatedTypeByName fold (memoryService fold gateway cache ttl now) req.Typ w
      = (.ok t, w1))
    (hlimit : 1 ≤ t.RequestLimit)
    (hfit : 1000000000 * t.RateLimit < 9223372036854775808)
    (hstored : sent.Sublist w.state.1.notifications)
    (hcount : (sent.length : Int) = t.RequestLimit)
    (hsent : ∀ n ∈ sent, n.UserID = req.UserID ∧ n.Typ = t
      ∧ s ≤ n.Date ∧ n.Date < s + 1000000000 * t.RateLimit)
    (hnow : s ≤ now w1.state.2 ∧ now w1.state.2 < s + 1000000000 * t.RateLimit) :
    (Send fold (memoryService fold gateway cache ttl now) req w).1
      = some Error.RateLimitError := by
  have hpos : -9223372036854775808 < 1000000000 * t.RateLimit := by
    have h1 := hnow.1
    have h2 := hnow.2
    have h3 : (0 : Int) < 1000000000 * t.RateLimit := by linarith
    linarith
  have hstart := windowStart_of_fits (now w1.state.2) t hpos hfit
  have hall : ∀ n ∈ sent,
      matchesSince fold req.UserID t.Name (windowStart (now w1.state.2) t) n = true := by
    intro n hn
    obtain ⟨huser, htype, hfrom, _⟩ := hsent n hn
    have hafter : windowStart (now w1.state.2) t < n.Date := by
      rw [hstart]
      have h2 := hnow.2
      linarith
    simp [matchesSince, htype, EqualFold_refl, huser, Time.After, hafter]
  have hlen : sent.length ≤ (w.state.1.GetUserNotificationSinceDate fold req.UserID t.Name
      (windowStart (now w1.state.2) t)).length := by
    rw [memoryRepo_query_length]
    calc sent.length
        = sent.countP (matchesSince fold req.UserID t.Name (windowStart (now w1.state.2) t)) :=
          (List.countP_eq_length.mpr hall).symm
      _ ≤ _ := hstored.countP_le _
  have hge : t.RequestLimit ≤ ((w.state.1.GetUserNotificationSinceDate fold req.UserID t.Name
      (windowStart (now w1.state.2) t)).length : Int) := by
    rw [← hcount]
    exact_mod_cast hlen
  have hne : w.state.1.GetUserNotificationSinceDate fold req.UserID t.Name
      (windowStart (now w1.state.2) t) ≠ [] := by
    intro hnil
    rw [hnil] at hge
    simp at hge
    omega
  rw [memory_Send_of_resolved fold gateway cache ttl now req w w1 t hvalid hres,
    if_pos ⟨hne, hge⟩]

/-- C1, amended, on the scenario of the specification: `STATUS` allows 2 sends
per 120 s, sends are recorded at 0 s and 10 s, and the send at 119.999999999 s
is rejected. -/
theorem Send_rejects_inside_span_witness :
    statusRequest.Validate = none
    ∧ (1 : Int) ≤ status.RequestLimit
    ∧ 1000000000 * status.RateLimit < 9223372036854775808
    ∧ (Send Char.toLower (service okGateway coldCache) statusRequest
        (start (repoOf status [⟨1, 1, status, 0⟩, ⟨2, 1, status, 10000000000⟩])
          119999999999)).1 = some Error.RateLimitError :=
  ⟨by decide, by decide, by decide,
    Send_rejects_inside_span Char.toLower okGateway coldCache hour (fun s => s) statusRequest
      (start (repoOf status [⟨1, 1, status, 0⟩, ⟨2, 1, status, 10000000000⟩]) 119999999999)
      (getValidatedTypeByName Char.toLower (service okGateway coldCache) "STATUS"
        (start (repoOf status [⟨1, 1, status, 0⟩, ⟨2, 1, status, 10000000000⟩])
          119999999999)).2
      status 0 [⟨1, 1, status, 0⟩, ⟨2, 1, status, 10000000000⟩]
      (by decide) rfl (by decide) (by decide) (List.Sublist.refl _) (by decide)
      (by decide) (by decide)⟩

theorem windowStart_le (now : Time) (t : NotifType)
    (hhi : 1000000000 * t.RateLimit < 9223372036854775808) :
    windowStart now t ≤ now - 1000000000 * t.RateLimit := by
  have hwrap : wrapInt64 (-(wrapInt64 (1000000000 * t.RateLimit)))
      ≤ -(1000000000 * t.RateLimit) := by
    unfold wrapInt64
    omega
  have hsum : windowStart now t
      = now + wrapInt64 (-(wrapInt64 (1000000000 * t.RateLimit))) := rfl
  rw [hsum]
  linarith

theorem recordsInWindow_length (fold : Char → Char) (history : Notifications) (userID : Int)
    (t : NotifType) (now : Time) :
    (recordsInWindow fold history userID t now).length
      = history.countP (fun n => decide (now - 1000000000 * t.RateLimit < n.Date)
          && (decide (n.UserID = userID) && EqualFold fold n.Typ.Name t.Name)) := by
  unfold recordsInWindow recordsOf
  rw [List.filter_filter, List.countP_eq_length_filter]

/-- C3, the claim as stated fails in two ways. With `requestLimit = -1` and an
empty history, `Send` reaches `Save` while the window holds 0 records, which
exceeds -1. With a window of 9223372037 s, whose nanosecond count wraps, and a
limit of 1, `Send` reaches `Save` while the window holds 2 records. -/
theorem Send_saves_beyond_limit :
    ((Send Char.toLower (service okGateway coldCache) statusRequest
        (start (repoOf negativeLimit []) 0)).2.calls.countP Call.isSave = 1
      ∧ negativeLimit.RequestLimit
        < ((recordsInWindow Char.toLower [] 1 negativeLimit 0).length : Int))
    ∧ ((Send Char.toLower (service okGateway coldCache) statusRequest
        (start (repoOf longWindow [⟨1, 1, longWindow, 0⟩, ⟨2, 1, longWindow, 0⟩]) 1)).2.calls.countP
          Call.isSave = 1
      ∧ longWindow.RequestLimit
        < ((recordsInWindow Char.toLower [⟨1, 1, longWindow, 0⟩, ⟨2, 1, longWindow, 0⟩] 1
            longWindow 1).length : Int)) := by
  decide

/-- C3, amended: for a type with `requestLimit ≥ 0` and
`rateLimitSeconds * 10^9 < 2^63`, every user and every history of the in-memory
repository: whenever `Send` reaches `repository.Save` (validation, resolution,
the rate-limit check and the dispatch succeeded), the history held at that
moment has at most `requestLimit` records of that user and type dated strictly
after `now - rateLimitSeconds`, `now` being the clock reading of the rate-limit
check or any later instant. -/
theorem Send_saves_within_limit {τ : Type} (fold : Char → Char) (gateway : Sender τ)
    (cache : Cacher τ) (ttl : Duration) (now : τ → Time) (req : Request)
    (w w1 w2 w3 : Run (memoryRepo × τ)) (t : NotifType) (later : Time)
    (hvalid : req.Validate = none)
    (hres : getValidatedTypeByName fold (memoryService fold gateway cache ttl now) req.Typ w
      = (.ok t, w1))
    (hcheck : validateRateLimit (memoryService fold gateway cache ttl now) t req.UserID w1
      = (none, w2))
    (hsend : callGatewaySend (memoryService fold gateway cache ttl now) req.UserID
      req.Message w2 = (none, w3))
    (hlimit : 0 ≤ t.RequestLimit)
    (hfit : 1000000000 * t.RateLimit < 9223372036854775808)
    (hlater : now w1.state.2 ≤ later) :
    Send fold (memoryService fold gateway cache ttl now) req w
      = callSave (memoryService fold gateway cache ttl now) t req.UserID w3
    ∧ ((recordsInWindow fold w3.state.1.notifications req.UserID t later).length : Int)
      ≤ t.RequestLimit := by
  have hw2 : w2.state = w1.state := by
    have h := congrArg (fun r => r.2.state) hcheck
    rw [memory_validateRateLimit] at h
    exact h.symm
  have hw3 : w3.state.1 = w2.state.1 := by
    have h := congrArg (fun r => r.2.state.1) hsend
    exact h.symm
  have hverdict : ¬ (w1.state.1.GetUserNotificationSinceDate fold req.UserID t.Name
        (windowStart (now w1.state.2) t) ≠ []
      ∧ t.RequestLimit ≤ ((w1.state.1.GetUserNotificationSinceDate fold req.UserID t.Name
        (windowStart (now w1.state.2) t)).length : Int)) := by
    intro hrej
    have h := congrArg (fun r => r.1) hcheck
    rw [memory_validateRateLimit] at h
    simp [hrej] at h
  refine ⟨?_, ?_⟩
  · rw [Send_of_resolved fold _ req w w1 t hvalid hres, hcheck]
    simp only [hsend]
  · have hle : (recordsInWindow fold w3.state.1.notifications req.UserID t later).length
        ≤ (w1.state.1.GetUserNotificationSinceDate fold req.UserID t.Name
            (windowStart (now w1.state.2) t)).length := by
      rw [recordsInWindow_length, memoryRepo_query_length, hw3, hw2]
      apply List.countP_mono_left
      intro n _ hn
      have hstart := windowStart_le (now w1.state.2) t hfit
      simp only [Bool.and_eq_true, decide_eq_true_eq] at hn
      obtain ⟨hdate, huser, hname⟩ := hn
      have hafter : windowStart (now w1.state.2) t < n.Date := by linarith
      simp [matchesSince, hname, huser, Time.After, hafter]
    by_cases hnil : w1.state.1.GetUserNotificationSinceDate fold req.UserID t.Name
        (windowStart (now w1.state.2) t) = []
    · rw [hnil] at hle
      have hzero : (recordsInWindow fold w3.state.1.notifications req.UserID t later).length
          = 0 := by simpa using hle
      rw [hzero]
      exact_mod_cast hlimit
    · have hlt : ¬ t.RequestLimit ≤ ((w1.state.1.GetUserNotificationSinceDate fold req.UserID
          t.Name (windowStart (now w1.state.2) t)).length : Int) :=
        fun h => hverdict ⟨hnil, h⟩
      have hle' : ((recordsInWindow fold w3.state.1.notifications req.UserID t later).length
          : Int) ≤ ((w1.state.1.GetUserNotificationSinceDate fold req.UserID
          t.Name (windowStart (now w1.state.2) t)).length : Int) := by exact_mod_cast hle
      omega

/-- C3, amended, on the seeded `STATUS` limits (2 per 120 s) with one send
recorded at 0 s: the send at 10 s reaches `Save` and the window then holds one
record. -/
theorem Send_saves_within_limit_witness :
    statusRequest.Validate = none
    ∧ (0 : Int) ≤ status.RequestLimit
    ∧ 1000000000 * status.RateLimit < 9223372036854775808
    ∧ (Send Char.toLower (service okGateway coldCache) statusRequest
        (start (repoOf status [⟨1, 1, status, 0⟩]) 10000000000)).2.calls.getLast?
      = some (Call.save status 1)
    ∧ ((recordsInWindow Char.toLower [⟨1, 1, status, 0⟩] 1 status 10000000000).length : Int)
      ≤ status.RequestLimit :=
  ⟨by decide, by decide, by decide, by decide,
    (Send_saves_within_limit Char.toLower okGateway coldCache hour (fun s => s) statusRequest
      (start (repoOf status [⟨1, 1, status, 0⟩]) 10000000000)
      (getValidatedTypeByName Char.toLower (service okGateway coldCache) "STATUS"
        (start (repoOf status [⟨1, 1, status, 0⟩]) 10000000000)).2
      (validateRateLimit (service okGateway coldCache) status 1
        (getValidatedTypeByName Char.toLower (service okGateway coldCache) "STATUS"
          (start (repoOf status [⟨1, 1, status, 0⟩]) 10000000000)).2).2
      (callGatewaySend (service okGateway coldCache) 1 "hi"
        (validateRateLimit (service okGateway coldCache) status 1
          (getValidatedTypeByName Char.toLower (service okGateway coldCache) "STATUS"
            (start (repoOf status [⟨1, 1, status, 0⟩]) 10000000000)).2).2).2
      status 10000000000 (by decide) rfl rfl rfl (by decide) (by decide) (le_refl _)).2⟩

/-- C4, the claim as stated fails: with a window of -9223372037 s, whose
nanosecond count wraps to a positive one, a limit of 1 and the single send of
the user recorded at instant 0, the send at 1 ns, which is more than
-9223372037 s after that oldest send, is rejected. -/
theorem Send_rejected_after_window :
    statusRequest.Validate = none
    ∧ ((recordsOf Char.toLower [⟨1, 1, negativeWindow, 0⟩] 1 negativeWindow).length : Int)
      = negativeWindow.RequestLimit
    ∧ (0 : Int) + 1000000000 * negativeWindow.RateLimit < 1
    ∧ (Send Char.toLower (service okGateway coldCache) statusRequest
        (start (repoOf negativeWindow [⟨1, 1, negativeWindow, 0⟩]) 1)).1
      = some Error.RateLimitError := by
  decide

/-- C4, amended: for a type with `requestLimit = N` and `rateLimitSeconds = W`
with `W * 10^9 ≥ -2^63` (every non-negative window in particular), every user
and every history of the in-memory repository holding exactly `N` records of
that user and type: a valid `Send` for the same user that resolves to that
type, issued when the clock reads more than `W` seconds after one of those
records (the oldest in particular), passes the rate-limit check, and when the
dispatch succeeds `Send` returns `nil` and appends the record of this send. -/
theorem Send_admits_after_window {τ : Type} (fold : Char → Char) (gateway : Sender τ)
    (cache : Cacher τ) (ttl : Duration) (now : τ → Time) (req : Request)
    (w w1 : Run (memoryRepo × τ)) (t : NotifType) (old : Notification)
    (hvalid : req.Validate = none)
    (hres : getValidatedTypeByName fold (memoryService fold gateway cache ttl now) req.Typ w
      = (.ok t, w1))
    (hfit : -9223372036854775808 ≤ 1000000000 * t.RateLimit)
    (hcount : ((recordsOf fold w.state.1.notifications req.UserID t).length : Int)
      = t.RequestLimit)
    (hold : old ∈ recordsOf fold w.state.1.notifications req.UserID t)
    (hnow : old.Date + 1000000000 * t.RateLimit < now w1.state.2)
    (hsend : (gateway.Send req.UserID req.Message w1.state.2).1 = none) :
    (validateRateLimit (memoryService fold gateway cache ttl now) t req.UserID w1).1 = none
    ∧ (Send fold (memoryService fold gateway cache ttl now) req w).1 = none
    ∧ (Send fold (memoryService fold gateway cache ttl now) req w).2.state.1.notifications
      = w.state.1.notifications
        ++ [⟨(w.state.1.notifications.length : Int) + 1, req.UserID, t,
            now (gateway.Send req.UserID req.Message w1.state.2).2⟩] := by
  have hw1 : w1.state.1 = w.state.1 := by
    have h := memory_getValidatedTypeByName_repo fold gateway cache ttl now req.Typ w
    rw [hres] at h
    exact h
  have hmem := List.mem_filter.mp hold
  have holdq : (decide (old.UserID = req.UserID) && EqualFold fold old.Typ.Name t.Name)
      = true := hmem.2
  have hstart := windowStart_ge (now w1.state.2) t hfit
  have hlt : (w.state.1.GetUserNotificationSinceDate fold req.UserID t.Name
        (windowStart (now w1.state.2) t)).length
      < (recordsOf fold w.state.1.notifications req.UserID t).length := by
    rw [memoryRepo_query_length]
    unfold recordsOf
    rw [← List.countP_eq_length_filter]
    apply countP_lt_of_excluded _ _ _ old _ hmem.1 holdq
    · have hbefore : ¬ windowStart (now w1.state.2) t < old.Date := by
        intro h
        linarith
      simp [matchesSince, Time.After, hbefore]
    · intro n _ hn
      simp only [matchesSince, Bool.and_eq_true, beq_iff_eq] at hn
      simp [hn.1.1, hn.1.2]
  have hverdict : ¬ (w.state.1.GetUserNotificationSinceDate fold req.UserID t.Name
        (windowStart (now w1.state.2) t) ≠ []
      ∧ t.RequestLimit ≤ ((w.state.1.GetUserNotificationSinceDate fold req.UserID t.Name
        (windowStart (now w1.state.2) t)).length : Int)) := by
    rintro ⟨_, hge⟩
    rw [← hcount] at hge
    have hge' := Int.ofNat_le.mp hge
    omega
  have hgw : ((memoryService fold gateway cache ttl now).gateway.Send req.UserID req.Message
      w1.state).1 = none := hsend
  refine ⟨?_, ?_, ?_⟩
  · rw [memory_validateRateLimit, hw1, if_neg hverdict]
  · rw [memory_Send_of_resolved fold gateway cache ttl now req w w1 t hvalid hres,
      if_neg hverdict]
    simp only [callGatewaySend, hgw]
    rfl
  · rw [memory_Send_of_resolved fold gateway cache ttl now req w w1 t hvalid hres,
      if_neg hverdict]
    simp only [callGatewaySend, hgw]
    show (memoryRepo.Save w1.state.1 t req.UserID _).notifications = _
    rw [hw1]
    rfl

/-- C4, amended, on the scenario of the specification: `STATUS` allows 2 sends
per 120 s, sends are recorded at 0 s and 10 s, and the send at 121 s is
admitted and recorded with id 3. -/
theorem Send_admits_after_window_witness :
    statusRequest.Validate = none
    ∧ (-9223372036854775808 : Int) ≤ 1000000000 * status.RateLimit
    ∧ (0 : Int) + 1000000000 * status.RateLimit < 121000000000
    ∧ (Send Char.toLower (service okGateway coldCache) statusRequest
        (start (repoOf status [⟨1, 1, status, 0⟩, ⟨2, 1, status, 10000000000⟩])
          121000000000)).1 = none
    ∧ (Send Char.toLower (service okGateway coldCache) statusRequest
        (start (repoOf status [⟨1, 1, status, 0⟩, ⟨2, 1, status, 10000000000⟩])
          121000000000)).2.state.1.notifications
      = [⟨1, 1, status, 0⟩, ⟨2, 1, status, 10000000000⟩] ++ [⟨3, 1, status, 121000000000⟩] :=
  ⟨by decide, by decide, by decide,
    (Send_admits_after_window Char.toLower okGateway coldCache hour (fun s => s) statusRequest
      (start (repoOf status [⟨1, 1, status, 0⟩, ⟨2, 1, status, 10000000000⟩]) 121000000000)
      (getValidatedTypeByName Char.toLower (service okGateway coldCache) "STATUS"
        (start (repoOf status [⟨1, 1, status, 0⟩, ⟨2, 1, status, 10000000000⟩])
          121000000000)).2
      status ⟨1, 1, status, 0⟩ (by decide) rfl (by decide) (by decide) (by decide)
      (by decide) rfl).2.1,
    (Send_admits_after_window Char.toLower okGateway coldCache hour (fun s => s) statusRequest
      (start (repoOf status [⟨1, 1, status, 0⟩, ⟨2, 1, status, 10000000000⟩]) 121000000000)
      (getValidatedTypeByName Char.toLower (service okGateway coldCache) "STATUS"
        (start (repoOf status [⟨1, 1, status, 0⟩, ⟨2, 1, status, 10000000000⟩])
          121000000000)).2
      status ⟨1, 1, status, 0⟩ (by decide) rfl (by decide) (by decide) (by decide)
      (by decide) rfl).2.2⟩

end notification

namespace notification
open mock fixture

/-! ### Lookup of a type by name -/

/-- C19, the claim as stated fails in its "only if": the list holds one
zero-valued type, whose empty name matches the empty name, so an element
matches and yet the zero-valued type is what `GetByName` returns. -/
theorem GetByName_zero_value_matched :
    EqualFold Char.toLower NotifType.zero.Name "" = true
    ∧ NotifType.zero ∈ [NotifType.zero]
    ∧ GetByName Char.toLower [NotifType.zero] "" = NotifType.zero := by
  decide

/-- C19, amended: `GetByName` returns the first element of the list whose name
equals the given name case-insensitively, and the zero-valued type (id 0,
`Exists` false) when no element matches; it returns the zero-valued type if
and only if no element matches or the first matching element is itself the
zero-valued type. -/
theorem GetByName_first_match (fold : Char → Char) (types : Types) (name : String) :
    ((∃ pre t post, types = pre ++ t :: post
          ∧ (∀ u ∈ pre, EqualFold fold u.Name name = false)
          ∧ EqualFold fold t.Name name = true
          ∧ GetByName fold types name = t)
      ∨ ((∀ u ∈ types, EqualFold fold u.Name name = false)
          ∧ GetByName fold types name = NotifType.zero))
    ∧ NotifType.zero.ID = 0
    ∧ NotifType.zero.Exists = false
    ∧ (GetByName fold types name = NotifType.zero ↔
        ((∀ u ∈ types, EqualFold fold u.Name name = false)
          ∨ ∃ pre post, types = pre ++ NotifType.zero :: post
              ∧ (∀ u ∈ pre, EqualFold fold u.Name name = false)
              ∧ EqualFold fold NotifType.zero.Name name = true)) := by
  have hfirst : (∃ pre t post, types = pre ++ t :: post
          ∧ (∀ u ∈ pre, EqualFold fold u.Name name = false)
          ∧ EqualFold fold t.Name name = true
          ∧ GetByName fold types name = t)
      ∨ ((∀ u ∈ types, EqualFold fold u.Name name = false)
          ∧ GetByName fold types name = NotifType.zero) := by
    induction types with
    | nil => exact Or.inr ⟨fun u hu => (by cases hu), rfl⟩
    | cons t rest ih =>
      by_cases ht : EqualFold fold t.Name name = true
      · exact Or.inl ⟨[], t, rest, rfl, fun u hu => (by cases hu), ht, by simp [GetByName, ht]⟩
      · have hf : EqualFold fold t.Name name = false := by simpa using ht
        have hstep : GetByName fold (t :: rest) name = GetByName fold rest name := by
          simp [GetByName, hf]
        rcases ih with ⟨pre, u, post, hsplit, hpre, hu, hget⟩ | ⟨hnone, hget⟩
        · refine Or.inl ⟨t :: pre, u, post, by rw [hsplit]; rfl, ?_, hu, by rw [hstep, hget]⟩
          intro v hv
          rcases List.mem_cons.mp hv with hvt | hvpre
          · rw [hvt]; exact hf
          · exact hpre v hvpre
        · refine Or.inr ⟨?_, by rw [hstep, hget]⟩
          intro v hv
          rcases List.mem_cons.mp hv with hvt | hvrest
          · rw [hvt]; exact hf
          · exact hnone v hvrest
  refine ⟨hfirst, rfl, rfl, ?_⟩
  constructor
  · intro hzero
    rcases hfirst with ⟨pre, t, post, hsplit, hpre, ht, hget⟩ | ⟨hnone, _⟩
    · have htz : t = NotifType.zero := by rw [← hget, hzero]
      subst htz
      exact Or.inr ⟨pre, post, hsplit, hpre, ht⟩
    · exact Or.inl hnone
  · rintro (hnone | ⟨pre, post, hsplit, hpre, hz⟩)
    · exact GetByName_of_no_match fold types name hnone
    · rcases hfirst with ⟨pre', t, post', hsplit', hpre', ht, hget⟩ | ⟨hnone, hget⟩
      · rw [hget]
        have key : ∀ (l : Types) (a b : List NotifType) (x y : NotifType) (c d : List NotifType),
            l = a ++ x :: c → l = b ++ y :: d →
            (∀ u ∈ a, EqualFold fold u.Name name = false) →
            (∀ u ∈ b, EqualFold fold u.Name name = false) →
            EqualFold fold x.Name name = true → EqualFold fold y.Name name = true → x = y := by
          intro l a
          induction a generalizing l with
          | nil =>
            intro b x y c d h1 h2 _ hb hx _
            cases b with
            | nil =>
              rw [h1] at h2
              simpa using (List.cons.inj h2).1
            | cons b0 b' =>
              rw [h1] at h2
              have hxb : x = b0 := (List.cons.inj h2).1
              have := hb b0 (List.mem_cons_self _ _)
              rw [← hxb, hx] at this
              cases this
          | cons a0 a' iha =>
            intro b x y c d h1 h2 ha hb hx hy
            cases b with
            | nil =>
              rw [h1] at h2
              have hay : a0 = y := (List.cons.inj h2).1
              have := ha a0 (List.mem_cons_self _ _)
              rw [hay, hy] at this
              cases this
            | cons b0 b' =>
              rw [h1] at h2
              have htl : a' ++ x :: c = b' ++ y :: d := (List.cons.inj h2).2
              exact iha (a' ++ x :: c) b' x y c d rfl htl
                (fun u hu => ha u (List.mem_cons_of_mem _ hu))
                (fun u hu => hb u (List.mem_cons_of_mem _ hu)) hx hy
        exact key types pre' pre t NotifType.zero post' post hsplit' hsplit hpre' hpre ht hz
      · exact hget

end notification

namespace mock
open notification fixture

/-! ### The in-memory repository on its own -/

theorem GetTypes_loop_eq (types acc : Types) :
    types.foldl (fun found t => if t.IsEnable then found ++ [t] else found) acc
      = acc ++ types.filter (fun t => t.IsEnable) := by
  induction types generalizing acc with
  | nil => simp
  | cons t rest ih =>
    by_cases ht : t.IsEnable = true
    · simp [List.foldl, ih, ht, List.filter]
    · simp [List.foldl, ih, ht, List.filter]

/-- C16. For every registry content, `memoryRepo.GetTypes` returns, with a `nil`
error and without touching the repository, exactly the types whose `IsEnable`
is true, in their original order: a type is returned if and only if it is in
the registry and enabled, so no disabled type is. -/
theorem GetTypes_enabled_in_order {τ : Type} (fold : Char → Char) (now : τ → Time)
    (r : memoryRepo) (x : τ) :
    r.GetTypes = r.types.filter (fun t => t.IsEnable)
    ∧ r.GetTypes.Sublist r.types
    ∧ (∀ t, t ∈ r.GetTypes ↔ (t ∈ r.types ∧ t.IsEnable = true))
    ∧ (memoryStorer fold now).GetTypes (r, x) = (.ok r.GetTypes, (r, x)) := by
  have heq : r.GetTypes = r.types.filter (fun t => t.IsEnable) := by
    unfold memoryRepo.GetTypes
    rw [GetTypes_loop_eq]
    rfl
  refine ⟨heq, ?_, ?_, rfl⟩
  · rw [heq]
    exact List.filter_sublist _
  · intro t
    rw [heq, List.mem_filter]

/-- C13. For every stored history, user, type name and start date,
`memoryRepo.GetUserNotificationSinceDate` returns, with a `nil` error and
without touching the repository, the stored records of that user whose type
name equals the given one case-insensitively and whose date is strictly after
the start date, each as often as it is stored, none other, the last stored
first; a record dated exactly the start date is left out. -/
theorem GetUserNotificationSinceDate_exact {τ : Type} (fold : Char → Char) (now : τ → Time)
    (r : memoryRepo) (userID : Int) (ntype : String) (startDate : Time) (x : τ) :
    r.GetUserNotificationSinceDate fold userID ntype startDate
      = (r.notifications.filter (fun n => decide (n.UserID = userID)
          && EqualFold fold n.Typ.Name ntype && decide (startDate < n.Date))).reverse
    ∧ (∀ n, n ∈ r.GetUserNotificationSinceDate fold userID ntype startDate ↔
        (n ∈ r.notifications ∧ n.UserID = userID ∧ EqualFold fold n.Typ.Name ntype = true
          ∧ startDate < n.Date))
    ∧ (∀ n ∈ r.notifications, n.Date = startDate →
        n ∉ r.GetUserNotificationSinceDate fold userID ntype startDate)
    ∧ (memoryStorer fold now).GetUserNotificationSinceDate userID ntype startDate (r, x)
      = (.ok (r.GetUserNotificationSinceDate fold userID ntype startDate), (r, x)) := by
  have hpred : matchesSince fold userID ntype startDate
      = (fun n => decide (n.UserID = userID)
          && EqualFold fold n.Typ.Name ntype && decide (startDate < n.Date)) := by
    funext n
    by_cases h1 : n.UserID = userID <;> by_cases h2 : EqualFold fold n.Typ.Name ntype = true <;>
      by_cases h3 : startDate < n.Date <;> simp [matchesSince, Time.After, h1, h2, h3]
  have hmem : ∀ n, n ∈ r.GetUserNotificationSinceDate fold userID ntype startDate ↔
      (n ∈ r.notifications ∧ n.UserID = userID ∧ EqualFold fold n.Typ.Name ntype = true
        ∧ startDate < n.Date) := by
    intro n
    rw [memoryRepo_query_eq, hpred, List.mem_reverse, List.mem_filter]
    simp [and_assoc]
  refine ⟨by rw [memoryRepo_query_eq, hpred], hmem, ?_, rfl⟩
  intro n _ hdate hin
  have hlt := ((hmem n).mp hin).2.2.2
  rw [hdate] at hlt
  exact lt_irrefl _ hlt

end mock

namespace mock
open notification fixture

theorem Save_notifications (r : memoryRepo) (t : NotifType) (userID : Int) (now : Time) :
    (r.Save t userID now).notifications
      = r.notifications ++ [⟨(r.notifications.length : Int) + 1, userID, t, now⟩] := rfl

theorem applySaves_notifications (saves : List SaveCall) (r : memoryRepo) :
    (applySaves r saves).notifications
      = r.notifications ++ List.zipWith
          (fun (i : Nat) (c : SaveCall) =>
            (⟨((r.notifications.length + i : Nat) : Int) + 1, c.userID, c.notifType,
              c.now⟩ : Notification))
          (List.range saves.length) saves := by
  induction saves generalizing r with
  | nil => simp [applySaves]
  | cons c rest ih =>
    have hstep : applySaves r (c :: rest) = applySaves (r.Save c.notifType c.userID c.now) rest :=
      rfl
    have hshift : (fun (i : Nat) (c' : SaveCall) =>
          (⟨((r.notifications.length + 1 + i : Nat) : Int) + 1, c'.userID, c'.notifType,
            c'.now⟩ : Notification))
        = (fun (i : Nat) (c' : SaveCall) =>
          (⟨((r.notifications.length + i.succ : Nat) : Int) + 1, c'.userID, c'.notifType,
            c'.now⟩ : Notification)) := by
      funext i c'
      have hidx : r.notifications.length + 1 + i = r.notifications.length + i.succ := by omega
      rw [hidx]
    rw [hstep, ih, Save_notifications, List.length_cons, List.range_succ_eq_map,
      List.zipWith_cons_cons, List.zipWith_map_left, List.append_assoc]
    simp only [List.length_append, List.length_singleton, List.singleton_append, Nat.add_zero]
    rw [hshift]

/-- C14. The repository reached from `NewNotificationMemoryRepo` by any
sequence of `Save` calls stores one record per call, in call order; the record
at position `i` (counted from 1) has id `i` and carries the user, the type
(by value) and the clock reading of its call, so the ids are nonzero, pairwise
distinct and strictly increasing; and on every repository `Save` appends
exactly one record, with the next id, that user, that type and the current
time, and leaves the registry alone. -/
theorem Save_numbers_records_in_order (saves : List SaveCall) (r : memoryRepo) (t : NotifType)
    (userID : Int) (now : Time) :
    (applySaves NewNotificationMemoryRepo saves).notifications
      = List.zipWith (fun (i : Nat) (c : SaveCall) =>
            (⟨(i : Int) + 1, c.userID, c.notifType, c.now⟩ : Notification))
          (List.range saves.length) saves
    ∧ (applySaves NewNotificationMemoryRepo saves).notifications.map (fun n => n.ID)
      = (List.range saves.length).map (fun (i : Nat) => (i : Int) + 1)
    ∧ (∀ n ∈ (applySaves NewNotificationMemoryRepo saves).notifications, n.ID ≠ 0)
    ∧ ((applySaves NewNotificationMemoryRepo saves).notifications.map (fun n => n.ID)).Pairwise
        (fun a b => a < b)
    ∧ ((applySaves NewNotificationMemoryRepo saves).notifications.map (fun n => n.ID)).Nodup
    ∧ (r.Save t userID now).notifications
      = r.notifications ++ [⟨(r.notifications.length : Int) + 1, userID, t, now⟩]
    ∧ (r.Save t userID now).types = r.types := by
  have hrecords : (applySaves NewNotificationMemoryRepo saves).notifications
      = List.zipWith (fun (i : Nat) (c : SaveCall) =>
            (⟨(i : Int) + 1, c.userID, c.notifType, c.now⟩ : Notification))
          (List.range saves.length) saves := by
    rw [applySaves_notifications]
    simp [NewNotificationMemoryRepo]
  have hids : (applySaves NewNotificationMemoryRepo saves).notifications.map (fun n => n.ID)
      = (List.range saves.length).map (fun (i : Nat) => (i : Int) + 1) := by
    rw [hrecords, List.map_zipWith]
    apply List.ext_getElem
    · simp
    · intro i h1 h2
      simp
  have hlt : ((List.range saves.length).map (fun (i : Nat) => (i : Int) + 1)).Pairwise
      (fun a b => a < b) := by
    rw [List.pairwise_map]
    exact (List.pairwise_lt_range _).imp (fun h => by omega)
  refine ⟨hrecords, hids, ?_, ?_, ?_, rfl, rfl⟩
  · intro n hn
    have hmem : n.ID ∈ (applySaves NewNotificationMemoryRepo saves).notifications.map
        (fun n => n.ID) := List.mem_map_of_mem _ hn
    rw [hids, List.mem_map] at hmem
    obtain ⟨i, _, hi⟩ := hmem
    omega
  · rw [hids]
    exact hlt
  · rw [hids]
    exact hlt.imp (fun h => ne_of_lt h)

/-- C15, evaluated on the code: the registry built by
`NewNotificationMemoryRepo` gives the ids 1, 2, 2, so the ids are nonzero but
`NEWS` and `MARKETING` share the id 2; the three names differ pairwise under
case-insensitive comparison, whatever the folding table. -/
theorem registry_ids_repeat (fold : Char → Char) :
    NewNotificationMemoryRepo.types.map (fun t => (t.Name, t.ID))
      = [("STATUS", 1), ("NEWS", 2), ("MARKETING", 2)]
    ∧ ¬ (NewNotificationMemoryRepo.types.map (fun t => t.ID)).Nodup
    ∧ (∀ t ∈ NewNotificationMemoryRepo.types, t.ID ≠ 0)
    ∧ (NewNotificationMemoryRepo.types.filter (fun t => t.IsEnable)).Pairwise
        (fun a b => EqualFold fold a.Name b.Name = false) := by
  refine ⟨by decide, by decide, by decide, ?_⟩
  simp [NewNotificationMemoryRepo, EqualFold, equalFoldRunes]

end mock

namespace main
open notification

/-! ### The webhook's validator -/

/-- C20. For every request of the webhook, its `Validate` fails if and only if
`Validate` of the converted request fails, with the same error text, and
`ToNotification` keeps the type, the message and the user id as they are. -/
theorem Request_Validate_agrees_with_core (r : Request) :
    (r.Validate.isSome = true ↔ r.ToNotification.Validate.isSome = true)
    ∧ r.Validate.map Error.Error = r.ToNotification.Validate.map Error.Error
    ∧ r.ToNotification.Typ = r.Typ
    ∧ r.ToNotification.Message = r.Message
    ∧ r.ToNotification.UserID = r.UserID := by
  have hsame : r.Validate = r.ToNotification.Validate := by
    unfold Request.Validate notification.Request.Validate Request.ToNotification
    rfl
  refine ⟨?_, ?_, rfl, rfl, rfl⟩
  · rw [hsame]
  · rw [hsame]

end main

namespace notification
open mock fixture

/-! ### What a resolved type is -/

/-- C12, the claim as stated fails: a cache holding a `STATUS` type that is not
enabled makes `getValidatedTypeByName` return that type without error. -/
theorem getValidatedTypeByName_returns_disabled :
    (getValidatedTypeByName Char.toLower (service okGateway (warmCache [disabledStatus]))
        "status" (start NewNotificationMemoryRepo 0)).1 = .ok disabledStatus
    ∧ disabledStatus.IsEnable = false := by
  exact ⟨rfl, rfl⟩

/-- C12, amended: when `getValidatedTypeByName` returns a type without error,
that type is an element of the set it searched (the one read from the cache,
or on a miss the one fetched from the registry): the first one whose name
equals the requested name case-insensitively; its id is nonzero; and it has
`enabled == true` whenever every type of that set has, as is the case for the
set `memoryRepo.GetTypes` returns. -/
theorem getValidatedTypeByName_result {σ : Type} (fold : Char → Char)
    (ns : NotificationService σ) (name : String) (w w1 : Run σ) (t : NotifType)
    (hres : getValidatedTypeByName fold ns name w = (.ok t, w1)) :
    (∃ types : Types,
        ((ns.cache.Get notificationTypeKey w.state).1 = .ok types
          ∨ ((∃ e, (ns.cache.Get notificationTypeKey w.state).1 = .error e)
            ∧ (ns.repository.GetTypes (ns.cache.Get notificationTypeKey w.state).2).1
              = .ok types))
        ∧ t ∈ types
        ∧ t = GetByName fold types name
        ∧ ((∀ u ∈ types, u.IsEnable = true) → t.IsEnable = true))
    ∧ EqualFold fold t.Name name = true
    ∧ t.ID ≠ 0
    ∧ (∀ r : memoryRepo, ∀ u ∈ r.GetTypes, u.IsEnable = true) := by
  have hcheck : ∀ types : Types, checkExists name (GetByName fold types name) = .ok t →
      t = GetByName fold types name ∧ t.ID ≠ 0 ∧ t ∈ types
        ∧ EqualFold fold t.Name name = true := by
    intro types hok
    unfold checkExists at hok
    split at hok
    · cases hok
    · rename_i hexists
      have ht : GetByName fold types name = t := by
        injection hok
      have hid : t.ID ≠ 0 := by
        rw [← ht]
        simpa [NotifType.Exists] using hexists
      have hfound : ∀ l : Types, (GetByName fold l name).ID ≠ 0 →
          GetByName fold l name ∈ l ∧ EqualFold fold (GetByName fold l name).Name name = true := by
        intro l
        induction l with
        | nil => intro h; exact absurd rfl h
        | cons u rest ih =>
          intro h
          by_cases hu : EqualFold fold u.Name name = true
          · simp [GetByName, hu]
          · have hstep : GetByName fold (u :: rest) name = GetByName fold rest name := by
              simp [GetByName, hu]
            rw [hstep] at h ⊢
            exact ⟨List.mem_cons_of_mem _ (ih h).1, (ih h).2⟩
      have := hfound types (by rw [ht]; exact hid)
      rw [ht] at this
      exact ⟨ht.symm, hid, this.1, this.2⟩
  have henabled : ∀ r : memoryRepo, ∀ u ∈ r.GetTypes, u.IsEnable = true := by
    intro r u hu
    unfold memoryRepo.GetTypes at hu
    rw [GetTypes_loop_eq] at hu
    simpa using (List.mem_filter.mp hu).2
  cases h1 : (ns.cache.Get notificationTypeKey w.state).1 with
  | ok types =>
    rw [getValidatedTypeByName_hit fold ns name w types h1] at hres
    have hok := congrArg Prod.fst hres
    obtain ⟨heq, hid, hmem, hname⟩ := hcheck types hok
    exact ⟨⟨types, Or.inl rfl, hmem, heq, fun hall => hall t hmem⟩, hname, hid, henabled⟩
  | error e =>
    cases h2 : (ns.repository.GetTypes (ns.cache.Get notificationTypeKey w.state).2).1 with
    | error err =>
      rw [getValidatedTypeByName_fetch_error fold ns name w e err h1 h2] at hres
      cases congrArg Prod.fst hres
    | ok types =>
      rw [getValidatedTypeByName_fetch_ok fold ns name w e types h1 h2] at hres
      have hok := congrArg Prod.fst hres
      simp only at hok
      split at hok
      · cases hok
      · obtain ⟨heq, hid, hmem, hname⟩ := hcheck types hok
        exact ⟨⟨types, Or.inr ⟨⟨e, rfl⟩, rfl⟩, hmem, heq, fun hall => hall t hmem⟩, hname, hid,
          henabled⟩

end notification

namespace notification
open mock fixture

/-- C12, amended, on the seeded registry behind a cold cache: the lookup of
`status` returns the enabled type `STATUS`, whose id is 1. -/
theorem getValidatedTypeByName_result_witness :
    (getValidatedTypeByName Char.toLower (service okGateway coldCache) "status"
        (start NewNotificationMemoryRepo 0)).1 = .ok status
    ∧ EqualFold Char.toLower status.Name "status" = true
    ∧ status.ID ≠ 0 :=
  ⟨rfl,
    (getValidatedTypeByName_result Char.toLower (service okGateway coldCache) "status"
      (start NewNotificationMemoryRepo 0)
      (getValidatedTypeByName Char.toLower (service okGateway coldCache) "status"
        (start NewNotificationMemoryRepo 0)).2 status rfl).2.1,
    (getValidatedTypeByName_result Char.toLower (service okGateway coldCache) "status"
      (start NewNotificationMemoryRepo 0)
      (getValidatedTypeByName Char.toLower (service okGateway coldCache) "status"
        (start NewNotificationMemoryRepo 0)).2 status rfl).2.2.1⟩

/-! ### The history under the core -/

section memory
variable {τ : Type} (fold : Char → Char) (gateway : Sender τ) (cache : Cacher τ)
  (ttl : Duration) (now : τ → Time)

theorem memory_Send_repo (req : Request) (w : Run (memoryRepo × τ)) :
    (Send fold (memoryService fold gateway cache ttl now) req w).2.state.1 = w.state.1
    ∨ ∃ t at_, (Send fold (memoryService fold gateway cache ttl now) req w).1 = none
        ∧ (Send fold (memoryService fold gateway cache ttl now) req w).2.state.1
          = w.state.1.Save t req.UserID at_ := by
  cases hvalid : req.Validate with
  | some e =>
    left
    simp [Send, hvalid]
  | none =>
    have hrepo := memory_getValidatedTypeByName_repo fold gateway cache ttl now req.Typ w
    rcases hres : getValidatedTypeByName fold (memoryService fold gateway cache ttl now)
        req.Typ w with ⟨res, w1⟩
    rw [hres] at hrepo
    cases res with
    | error e =>
      left
      rw [Send_of_unresolved fold _ req w w1 e hvalid hres]
      exact hrepo
    | ok t =>
      rw [memory_Send_of_resolved fold gateway cache ttl now req w w1 t hvalid hres]
      split_ifs
      · left
        exact hrepo
      · cases hsend : (gateway.Send req.UserID req.Message w1.state.2).1 with
        | some e =>
          left
          have hgw : ((memoryService fold gateway cache ttl now).gateway.Send req.UserID
              req.Message w1.state).1 = some e := hsend
          simp only [callGatewaySend, hgw]
          exact hrepo
        | none =>
          right
          have hgw : ((memoryService fold gateway cache ttl now).gateway.Send req.UserID
              req.Message w1.state).1 = none := hsend
          simp only [callGatewaySend, hgw]
          refine ⟨t, now (gateway.Send req.UserID req.Message w1.state.2).2, rfl, ?_⟩
          show memoryRepo.Save w1.state.1 t req.UserID _ = _
          rw [hrepo]
          rfl

end memory

/-- C17. Over the in-memory repository, for every request, every prior history
and every behaviour of the cache, the gateway and the clock, the history after
`Send` is the prior history followed by at most one new record: no stored
record is changed, moved or removed; and the registry is left as it was. -/
theorem Send_history_append_only {τ : Type} (fold : Char → Char) (gateway : Sender τ)
    (cache : Cacher τ) (ttl : Duration) (now : τ → Time) (req : Request)
    (w : Run (memoryRepo × τ)) :
    (∃ added : Notifications,
        (Send fold (memoryService fold gateway cache ttl now) req w).2.state.1.notifications
          = w.state.1.notifications ++ added
        ∧ added.length ≤ 1)
    ∧ w.state.1.notifications.IsPrefix
        (Send fold (memoryService fold gateway cache ttl now) req w).2.state.1.notifications
    ∧ (Send fold (memoryService fold gateway cache ttl now) req w).2.state.1.types
      = w.state.1.types := by
  rcases memory_Send_repo fold gateway cache ttl now req w with hsame | ⟨t, at_, _, hsaved⟩
  · rw [hsame]
    exact ⟨⟨[], by simp, by simp⟩, List.prefix_refl _, rfl⟩
  · rw [hsaved]
    exact ⟨⟨_, rfl, by simp⟩, List.prefix_append _ _, rfl⟩

end notification

namespace notification
open mock fixture

/-! ### Orchestration: the first failing step decides -/

/-- C11. For every request and all collaborator behaviours, `Send` returns the
error of the first step that fails, in the order validation, registry fetch,
cache write, type not found, history query, rate limit, dispatch, save; an
error that comes from a collaborator is returned as it is; the calls made are
exactly those up to the failing step; and `Send` returns `nil` if and only if
validation, resolution, the rate-limit check, the dispatch and the save all
succeed. -/
theorem Send_returns_first_failure {σ : Type} (fold : Char → Char)
    (ns : NotificationService σ) (req : Request) (w : Run σ) :
    (∀ e, req.Validate = some e → Send fold ns req w = (some e, w))
    ∧ (∀ e0 e, req.Validate = none →
        (ns.cache.Get notificationTypeKey w.state).1 = .error e0 →
        (ns.repository.GetTypes (ns.cache.Get notificationTypeKey w.state).2).1 = .error e →
        (Send fold ns req w).1 = some e
        ∧ (Send fold ns req w).2.calls
          = w.calls ++ [Call.cacheGet notificationTypeKey, Call.getTypes])
    ∧ (∀ e0 types e, req.Validate = none →
        (ns.cache.Get notificationTypeKey w.state).1 = .error e0 →
        (ns.repository.GetTypes (ns.cache.Get notificationTypeKey w.state).2).1 = .ok types →
        (ns.cache.Set notificationTypeKey types ns.ttl
          (ns.repository.GetTypes (ns.cache.Get notificationTypeKey w.state).2).2).1 = some e →
        (Send fold ns req w).1 = some e
        ∧ (Send fold ns req w).2.calls
          = w.calls ++ [Call.cacheGet notificationTypeKey, Call.getTypes,
              Call.cacheSet notificationTypeKey types ns.ttl])
    ∧ (∀ types, req.Validate = none →
        ((ns.cache.Get notificationTypeKey w.state).1 = .ok types
          ∨ ((∃ e0, (ns.cache.Get notificationTypeKey w.state).1 = .error e0)
            ∧ (ns.repository.GetTypes (ns.cache.Get notificationTypeKey w.state).2).1
              = .ok types
            ∧ (ns.cache.Set notificationTypeKey types ns.ttl
                (ns.repository.GetTypes (ns.cache.Get notificationTypeKey w.state).2).2).1
              = none)) →
        (GetByName fold types req.Typ).Exists = false →
        (Send fold ns req w).1
          = some (.errorString ("notification type '" ++ req.Typ ++ "' not found or disabled"))
        ∧ ((Send fold ns req w).2.calls = w.calls ++ [Call.cacheGet notificationTypeKey]
          ∨ (Send fold ns req w).2.calls
            = w.calls ++ [Call.cacheGet notificationTypeKey, Call.getTypes,
                Call.cacheSet notificationTypeKey types ns.ttl]))
    ∧ (∀ e w1, req.Validate = none →
        getValidatedTypeByName fold ns req.Typ w = (.error e, w1) →
        Send fold ns req w = (some e, w1))
    ∧ (∀ t w1 e, req.Validate = none →
        getValidatedTypeByName fold ns req.Typ w = (.ok t, w1) →
        (ns.repository.GetUserNotificationSinceDate req.UserID t.Name
          (windowStart (ns.now w1.state) t) w1.state).1 = .error e →
        (Send fold ns req w).1 = some e
        ∧ (Send fold ns req w).2.calls
          = w1.calls ++ [Call.getUserNotificationSinceDate req.UserID t.Name
              (windowStart (ns.now w1.state) t)])
    ∧ (∀ t w1 notifications, req.Validate = none →
        getValidatedTypeByName fold ns req.Typ w = (.ok t, w1) →
        (ns.repository.GetUserNotificationSinceDate req.UserID t.Name
          (windowStart (ns.now w1.state) t) w1.state).1 = .ok notifications →
        (notifications ≠ [] ∧ t.RequestLimit ≤ (notifications.length : Int)) →
        (Send fold ns req w).1 = some Error.RateLimitError
        ∧ (Send fold ns req w).2.calls
          = w1.calls ++ [Call.getUserNotificationSinceDate req.UserID t.Name
              (windowStart (ns.now w1.state) t)])
    ∧ (∀ t w1 w2 e, req.Validate = none →
        getValidatedTypeByName fold ns req.Typ w = (.ok t, w1) →
        validateRateLimit ns t req.UserID w1 = (none, w2) →
        (ns.gateway.Send req.UserID req.Message w2.state).1 = some e →
        (Send fold ns req w).1 = some e
        ∧ (Send fold ns req w).2.calls = w2.calls ++ [Call.gatewaySend req.UserID req.Message])
    ∧ (∀ t w1 w2, req.Validate = none →
        getValidatedTypeByName fold ns req.Typ w = (.ok t, w1) →
        validateRateLimit ns t req.UserID w1 = (none, w2) →
        (ns.gateway.Send req.UserID req.Message w2.state).1 = none →
        (Send fold ns req w).1
          = (ns.repository.Save t req.UserID
              (ns.gateway.Send req.UserID req.Message w2.state).2).1
        ∧ (Send fold ns req w).2.calls
          = w2.calls ++ [Call.gatewaySend req.UserID req.Message, Call.save t req.UserID])
    ∧ ((Send fold ns req w).1 = none ↔
        (req.Validate = none
          ∧ ∃ t w1 w2, getValidatedTypeByName fold ns req.Typ w = (.ok t, w1)
            ∧ validateRateLimit ns t req.UserID w1 = (none, w2)
            ∧ (ns.gateway.Send req.UserID req.Message w2.state).1 = none
            ∧ (ns.repository.Save t req.UserID
                (ns.gateway.Send req.UserID req.Message w2.state).2).1 = none)) := by
  refine ⟨?_, ?_, ?_, ?_, ?_, ?_, ?_, ?_, ?_, ?_⟩
  · intro e hvalid
    simp [Send, hvalid]
  · intro e0 e hvalid hget hfetch
    rw [Send_of_unresolved fold ns req w _ e hvalid
      (getValidatedTypeByName_fetch_error fold ns req.Typ w e0 e hget hfetch)]
    exact ⟨rfl, rfl⟩
  · intro e0 types e hvalid hget hfetch hwrite
    have hres := getValidatedTypeByName_fetch_ok fold ns req.Typ w e0 types hget hfetch
    simp only [hwrite] at hres
    rw [Send_of_unresolved fold ns req w _ e hvalid hres]
    exact ⟨rfl, rfl⟩
  · intro types hvalid hset hmissing
    have hcheck : checkExists req.Typ (GetByName fold types req.Typ)
        = .error (.errorString ("notification type '" ++ req.Typ ++ "' not found or disabled")) := by
      simp [checkExists, hmissing]
    rcases hset with hhit | ⟨⟨e0, hmiss⟩, hfetch, hwrite⟩
    · have hres := getValidatedTypeByName_hit fold ns req.Typ w types hhit
      rw [hcheck] at hres
      rw [Send_of_unresolved fold ns req w _ _ hvalid hres]
      exact ⟨rfl, Or.inl rfl⟩
    · have hres := getValidatedTypeByName_fetch_ok fold ns req.Typ w e0 types hmiss hfetch
      simp only [hwrite] at hres
      rw [hcheck] at hres
      rw [Send_of_unresolved fold ns req w _ _ hvalid hres]
      exact ⟨rfl, Or.inr rfl⟩
  · intro e w1 hvalid hres
    exact Send_of_unresolved fold ns req w w1 e hvalid hres
  · intro t w1 e hvalid hres hquery
    rw [Send_of_resolved fold ns req w w1 t hvalid hres, validateRateLimit_eq]
    simp [hquery]
  · intro t w1 notifications hvalid hres hquery hrej
    rw [Send_of_resolved fold ns req w w1 t hvalid hres, validateRateLimit_eq]
    simp [hquery, hrej]
  · intro t w1 w2 e hvalid hres hlimit hsend
    rw [Send_of_resolved fold ns req w w1 t hvalid hres, hlimit]
    simp [callGatewaySend, hsend]
  · intro t w1 w2 hvalid hres hlimit hsend
    rw [Send_of_resolved fold ns req w w1 t hvalid hres, hlimit]
    simp [callGatewaySend, hsend, callSave]
  · constructor
    · intro hnil
      cases hvalid : req.Validate with
      | some e =>
        simp [Send, hvalid] at hnil
      | none =>
        refine ⟨rfl, ?_⟩
        rcases hres : getValidatedTypeByName fold ns req.Typ w with ⟨res, w1⟩
        cases res with
        | error e =>
          rw [Send_of_unresolved fold ns req w w1 e hvalid hres] at hnil
          cases hnil
        | ok t =>
          rw [Send_of_resolved fold ns req w w1 t hvalid hres] at hnil
          rcases hlimit : validateRateLimit ns t req.UserID w1 with ⟨verdict, w2⟩
          rw [hlimit] at hnil
          cases verdict with
          | some e => cases hnil
          | none =>
            simp only [callGatewaySend] at hnil
            cases hsend : (ns.gateway.Send req.UserID req.Message w2.state).1 with
            | some e =>
              simp only [hsend] at hnil
              cases hnil
            | none =>
              simp only [hsend, callSave] at hnil
              exact ⟨t, w1, w2, rfl, hlimit, hsend, hnil⟩
    · rintro ⟨hvalid, t, w1, w2, hres, hlimit, hsend, hsave⟩
      rw [Send_of_resolved fold ns req w w1 t hvalid hres, hlimit]
      simp only [callGatewaySend, hsend, callSave]
      exact hsave

end notification

namespace notification
open mock fixture

/-! ### The constructor -/

theorem leadingInt_length (s : List Char) (x v : Nat) (s1 : List Char)
    (h : leadingInt s x = some (v, s1)) : s1.length ≤ s.length := by
  induction s generalizing x with
  | nil =>
    simp [leadingInt] at h
    rw [← h.2]
  | cons c s ih =>
    unfold leadingInt at h
    split_ifs at h
    · simp at h
      rw [← h.2]
    · exact Nat.le_trans (ih _ h) (Nat.le_succ _)

theorem leadingFraction_length (s : List Char) (x scale : Nat) (overflow : Bool) :
    (leadingFraction s x scale overflow).2.2.length ≤ s.length := by
  induction s generalizing x scale overflow with
  | nil => simp [leadingFraction]
  | cons c s ih =>
    unfold leadingFraction
    split_ifs
    · simp
    all_goals exact Nat.le_trans (ih _ _ _) (Nat.le_succ _)

theorem readFraction_length (s : List Char) : (readFraction s).2.2.1.length ≤ s.length := by
  unfold readFraction
  split
  · exact Nat.le_trans (leadingFraction_length _ _ _ _) (Nat.le_succ _)
  · exact Nat.le_refl _

theorem parseLoop_fuel (fraction : Nat → Nat → Nat → Nat) (fuel : Nat) (s : List Char) (d : Nat)
    (hfuel : s.length ≤ fuel) : parseLoop fraction fuel s d ≠ .outOfFuel := by
  induction fuel generalizing s d with
  | zero =>
    cases s with
    | nil => simp [parseLoop]
    | cons c s => simp at hfuel
  | succ fuel ih =>
    cases s with
    | nil => simp [parseLoop]
    | cons c s =>
      rw [parseLoop]
      split_ifs with h1
      · simp
      · split
        · simp
        · rename_i v s1 hint
          have hs1 := leadingInt_length _ _ _ _ hint
          have hfrac := readFraction_length s1
          have hsplit := congrArg List.length
            (List.takeWhile_append_dropWhile (fun b => !endsUnit b) (readFraction s1).2.2.1)
          rw [List.length_append] at hsplit
          have hrest : ¬ ((readFraction s1).2.2.1.takeWhile (fun b => !endsUnit b)).length = 0 →
              ((readFraction s1).2.2.1.dropWhile (fun b => !endsUnit b)).length ≤ fuel := by
            intro h3
            simp only [List.length_cons] at hfuel hs1
            omega
          repeat' (first | exact ih _ _ (hrest ‹_›) | (simp; done) | split)

theorem parseLoop_hour (fraction : Nat → Nat → Nat → Nat) :
    parseLoop fraction 2 ['1', 'h'] 0 = .value 3600000000000 := by
  simp [parseLoop, leadingInt, isDigit, unitMap, readFraction, endsUnit]

theorem ParseDuration_hour (fraction : Nat → Nat → Nat → Nat) :
    ParseDuration fraction "1h" = some 3600000000000 := by
  have hdata : "1h".data = ['1', 'h'] := rfl
  have hlen : ['1', 'h'].length = 2 := rfl
  unfold ParseDuration
  rw [hdata]
  simp only []
  rw [if_neg (by decide)]
  unfold parseUnsigned
  rw [if_neg (by decide), if_neg (by decide), hlen, parseLoop_hour fraction]
  simp

theorem ParseDuration_empty (fraction : Nat → Nat → Nat → Nat) :
    ParseDuration fraction "" = none := by
  have hdata : "".data = [] := rfl
  unfold ParseDuration
  rw [hdata]
  rfl

theorem NewNotificationService_of_parsed {σ : Type} (fraction : Nat → Nat → Nat → Nat)
    (gateway : Sender σ) (repository : Storer σ) (cache : Cacher σ) (now : σ → Time)
    (config : Config) (ttl : Duration) (hparse : ParseDuration fraction config.CacheTTL = some ttl) :
    NewNotificationService fraction gateway repository cache now config
      = .ok ⟨gateway, repository, cache, ttl, now⟩ := by
  unfold NewNotificationService
  rw [hparse]

theorem NewNotificationService_of_rejected {σ : Type} (fraction : Nat → Nat → Nat → Nat)
    (gateway : Sender σ) (repository : Storer σ) (cache : Cacher σ) (now : σ → Time)
    (config : Config) (hparse : ParseDuration fraction config.CacheTTL = none) :
    NewNotificationService fraction gateway repository cache now config
      = .error "required cache ttl invalid or not found" := by
  unfold NewNotificationService
  rw [hparse]

theorem hour_in_seconds : (3600 * Second : Duration) = 3600000000000 := by
  unfold Second
  norm_num

/-- C18. `NewNotificationService` panics, with the message "required cache ttl
invalid or not found", if and only if `time.ParseDuration` rejects
`Config.CacheTTL`, and otherwise returns the service holding the collaborators
and the parsed duration; it panics for the empty `Config`, and for
`CacheTTL = "1h"` it returns a service whose ttl is one hour (3600 seconds).
The parsing loop of the model always ends within its fuel. -/
theorem NewNotificationService_panics_iff {σ : Type} (fraction : Nat → Nat → Nat → Nat)
    (gateway : Sender σ) (repository : Storer σ) (cache : Cacher σ) (now : σ → Time)
    (config : Config) :
    ((∃ msg, NewNotificationService fraction gateway repository cache now config = .error msg)
      ↔ ParseDuration fraction config.CacheTTL = none)
    ∧ (NewNotificationService fraction gateway repository cache now config
        = .error "required cache ttl invalid or not found"
      ↔ ParseDuration fraction config.CacheTTL = none)
    ∧ (∀ ttl, ParseDuration fraction config.CacheTTL = some ttl ↔
        NewNotificationService fraction gateway repository cache now config
          = .ok ⟨gateway, repository, cache, ttl, now⟩)
    ∧ NewNotificationService fraction gateway repository cache now ⟨""⟩
      = .error "required cache ttl invalid or not found"
    ∧ NewNotificationService fraction gateway repository cache now ⟨"1h"⟩
      = .ok ⟨gateway, repository, cache, 3600 * Second, now⟩
    ∧ (∀ (s : List Char) (d : Nat), parseLoop fraction s.length s d ≠ .outOfFuel) := by
  refine ⟨?_, ?_, ?_, ?_, ?_, fun s d => parseLoop_fuel fraction _ s d (le_refl _)⟩
  · unfold NewNotificationService
    cases ParseDuration fraction config.CacheTTL <;> simp
  · unfold NewNotificationService
    cases ParseDuration fraction config.CacheTTL <;> simp
  · intro ttl
    unfold NewNotificationService
    cases ParseDuration fraction config.CacheTTL <;> simp
  · exact NewNotificationService_of_rejected fraction gateway repository cache now _
      (ParseDuration_empty fraction)
  · rw [hour_in_seconds]
    exact NewNotificationService_of_parsed fraction gateway repository cache now _ _
      (ParseDuration_hour fraction)

end notification

namespace notification
open mock fixture

/-! ### Isolation of the rate limit per user and type -/

theorem equalFoldRunes_iff (fold : Char → Char) (s t : List Char) :
    equalFoldRunes fold s t = true ↔ s.map fold = t.map fold := by
  induction s generalizing t with
  | nil =>
    cases t with
    | nil => simp [equalFoldRunes]
    | cons b t => simp [equalFoldRunes]
  | cons a s ih =>
    cases t with
    | nil => simp [equalFoldRunes]
    | cons b t =>
      simp only [equalFoldRunes, Bool.and_eq_true, Bool.or_eq_true, beq_iff_eq, ih,
        List.map_cons, List.cons.injEq]
      constructor
      · rintro ⟨hab | hab, hrest⟩
        · exact ⟨by rw [hab], hrest⟩
        · exact ⟨hab, hrest⟩
      · rintro ⟨hab, hrest⟩
        exact ⟨Or.inr hab, hrest⟩

theorem EqualFold_congr (fold : Char → Char) (a b n : String)
    (hab : EqualFold fold a b = true) : EqualFold fold n a = EqualFold fold n b := by
  have h1 := (equalFoldRunes_iff fold a.data b.data).mp hab
  rw [Bool.eq_iff_iff]
  unfold EqualFold
  rw [equalFoldRunes_iff, equalFoldRunes_iff, h1]

theorem getValidatedTypeByName_ok_name {σ : Type} (fold : Char → Char)
    (ns : NotificationService σ) (name : String) (w w1 : Run σ) (t : NotifType)
    (hres : getValidatedTypeByName fold ns name w = (.ok t, w1)) :
    EqualFold fold t.Name name = true := by
  have hfound : ∀ l : Types, (GetByName fold l name).ID ≠ 0 →
      EqualFold fold (GetByName fold l name).Name name = true := by
    intro l
    induction l with
    | nil => intro h; exact absurd rfl h
    | cons u rest ih =>
      intro h
      by_cases hu : EqualFold fold u.Name name = true
      · simp [GetByName, hu]
      · have hstep : GetByName fold (u :: rest) name = GetByName fold rest name := by
          simp [GetByName, hu]
        rw [hstep] at h ⊢
        exact ih h
  have hcheck : ∀ types : Types, checkExists name (GetByName fold types name) = .ok t →
      EqualFold fold t.Name name = true := by
    intro types hok
    unfold checkExists at hok
    split at hok
    · cases hok
    · rename_i hexists
      have ht : GetByName fold types name = t := by
        injection hok
      rw [← ht]
      apply hfound
      simpa [NotifType.Exists] using hexists
  cases h1 : (ns.cache.Get notificationTypeKey w.state).1 with
  | ok types =>
    rw [getValidatedTypeByName_hit fold ns name w types h1] at hres
    exact hcheck types (congrArg Prod.fst hres)
  | error e =>
    cases h2 : (ns.repository.GetTypes (ns.cache.Get notificationTypeKey w.state).2).1 with
    | error err =>
      rw [getValidatedTypeByName_fetch_error fold ns name w e err h1 h2] at hres
      cases congrArg Prod.fst hres
    | ok types =>
      rw [getValidatedTypeByName_fetch_ok fold ns name w e types h1 h2] at hres
      have hok := congrArg Prod.fst hres
      simp only at hok
      split at hok
      · cases hok
      · exact hcheck types hok

theorem memoryRepo_query_length_of_dates (fold : Char → Char) (r : memoryRepo) (userID : Int)
    (ntype name : String) (startDate : Time) (hname : EqualFold fold ntype name = true) :
    (r.GetUserNotificationSinceDate fold userID ntype startDate).length
      = ((recordsNamed fold r.notifications userID name).map (fun n => n.Date)).countP
          (fun d => decide (startDate < d)) := by
  rw [memoryRepo_query_length, List.countP_map]
  unfold recordsNamed
  rw [List.countP_filter]
  apply List.countP_congr
  intro n _
  have hfold := EqualFold_congr fold ntype name n.Typ.Name hname
  by_cases h1 : n.UserID = userID <;> by_cases h2 : EqualFold fold n.Typ.Name name = true <;>
    by_cases h3 : startDate < n.Date <;>
    simp [matchesSince, Time.After, hfold, h1, h2, h3]

end notification

namespace notification
open mock fixture

section memory
variable {τ : Type} (fold : Char → Char) (gateway : Sender τ) (cache : Cacher τ)
  (ttl : Duration) (now : τ → Time)

theorem memory_getValidatedTypeByName_history (name : String) (w w' : Run (memoryRepo × τ))
    (htypes : w.state.1.types = w'.state.1.types) (hext : w.state.2 = w'.state.2)
    (hcalls : w.calls = w'.calls) :
    (getValidatedTypeByName fold (memoryService fold gateway cache ttl now) name w).1
      = (getValidatedTypeByName fold (memoryService fold gateway cache ttl now) name w').1
    ∧ (getValidatedTypeByName fold (memoryService fold gateway cache ttl now) name w).2.calls
      = (getValidatedTypeByName fold (memoryService fold gateway cache ttl now) name w').2.calls
    ∧ (getValidatedTypeByName fold (memoryService fold gateway cache ttl now) name w).2.state.2
      = (getValidatedTypeByName fold (memoryService fold gateway cache ttl now) name
          w').2.state.2 := by
  have hfetch : w.state.1.GetTypes = w'.state.1.GetTypes := by
    unfold memoryRepo.GetTypes
    rw [htypes]
  obtain ⟨⟨r, x⟩, calls⟩ := w
  obtain ⟨⟨r', x'⟩, calls'⟩ := w'
  simp only at htypes hext hcalls hfetch
  subst hext hcalls
  unfold getValidatedTypeByName callCacheGet callGetTypes callCacheSet
  simp only [memoryService, memoryStorer]
  cases h1 : (cache.Get notificationTypeKey x).1 with
  | ok types => simp
  | error e =>
    simp only [hfetch]
    cases h2 : (cache.Set notificationTypeKey r'.GetTypes ttl
        (cache.Get notificationTypeKey x).2).1 <;> simp

end memory

end notification

namespace notification
open mock fixture

/-- C21. Over the in-memory repository, take two histories whose records of one
user and one type name (matched up to case) carry the same dates in the same
order, whatever their ids and whatever other users' or other types' records
stand between them. `Send` for that user and type name, with the same
registry, the same cache, gateway and clock in the same state, returns the
same result on both, makes the same calls with the same arguments, and leaves
the cache, gateway and clock in the same state. Histories that agree on those
records outright are a special case. -/
theorem Send_isolated_per_user_and_type {τ : Type} (fold : Char → Char) (gateway : Sender τ)
    (cache : Cacher τ) (ttl : Duration) (now : τ → Time) (req : Request)
    (history history' : Notifications) (types : Types) (x : τ) (calls : List Call)
    (hagree : (recordsNamed fold history req.UserID req.Typ).map (fun n => n.Date)
      = (recordsNamed fold history' req.UserID req.Typ).map (fun n => n.Date)) :
    (Send fold (memoryService fold gateway cache ttl now) req ⟨(⟨history, types⟩, x), calls⟩).1
      = (Send fold (memoryService fold gateway cache ttl now) req
          ⟨(⟨history', types⟩, x), calls⟩).1
    ∧ (Send fold (memoryService fold gateway cache ttl now) req
          ⟨(⟨history, types⟩, x), calls⟩).2.calls
      = (Send fold (memoryService fold gateway cache ttl now) req
          ⟨(⟨history', types⟩, x), calls⟩).2.calls
    ∧ (Send fold (memoryService fold gateway cache ttl now) req
          ⟨(⟨history, types⟩, x), calls⟩).2.state.2
      = (Send fold (memoryService fold gateway cache ttl now) req
          ⟨(⟨history', types⟩, x), calls⟩).2.state.2 := by
  cases hvalid : req.Validate with
  | some e => simp [Send, hvalid]
  | none =>
    obtain ⟨hsame, hcalls, hext⟩ := memory_getValidatedTypeByName_history fold gateway cache
      ttl now req.Typ ⟨(⟨history, types⟩, x), calls⟩ ⟨(⟨history', types⟩, x), calls⟩ rfl rfl rfl
    have hrepo := memory_getValidatedTypeByName_repo fold gateway cache ttl now req.Typ
      ⟨(⟨history, types⟩, x), calls⟩
    have hrepo' := memory_getValidatedTypeByName_repo fold gateway cache ttl now req.Typ
      ⟨(⟨history', types⟩, x), calls⟩
    rcases hres : getValidatedTypeByName fold (memoryService fold gateway cache ttl now)
        req.Typ ⟨(⟨history, types⟩, x), calls⟩ with ⟨res, w1⟩
    rcases hres' : getValidatedTypeByName fold (memoryService fold gateway cache ttl now)
        req.Typ ⟨(⟨history', types⟩, x), calls⟩ with ⟨res', w1'⟩
    rw [hres, hres'] at hsame hcalls hext
    rw [hres] at hrepo
    rw [hres'] at hrepo'
    obtain ⟨⟨r1, x1⟩, c1⟩ := w1
    obtain ⟨⟨r1', x1'⟩, c1'⟩ := w1'
    simp only at hsame hcalls hext hrepo hrepo'
    subst hsame hcalls hext hrepo hrepo'
    cases res with
    | error e =>
      rw [Send_of_unresolved fold _ req _ _ e hvalid hres,
        Send_of_unresolved fold _ req _ _ e hvalid hres']
      exact ⟨rfl, rfl, rfl⟩
    | ok t =>
      have hname := getValidatedTypeByName_ok_name fold _ req.Typ _ _ t hres
      have hlen : (memoryRepo.GetUserNotificationSinceDate fold ⟨history, types⟩ req.UserID
            t.Name (windowStart (now x1) t)).length
          = (memoryRepo.GetUserNotificationSinceDate fold ⟨history', types⟩ req.UserID
            t.Name (windowStart (now x1) t)).length := by
        rw [memoryRepo_query_length_of_dates fold _ req.UserID t.Name req.Typ _ hname,
          memoryRepo_query_length_of_dates fold _ req.UserID t.Name req.Typ _ hname]
        exact congrArg _ hagree
      have hverdict : (memoryRepo.GetUserNotificationSinceDate fold ⟨history, types⟩ req.UserID
              t.Name (windowStart (now x1) t) ≠ []
            ∧ t.RequestLimit ≤ ((memoryRepo.GetUserNotificationSinceDate fold ⟨history, types⟩
              req.UserID t.Name (windowStart (now x1) t)).length : Int))
          ↔ (memoryRepo.GetUserNotificationSinceDate fold ⟨history', types⟩ req.UserID
              t.Name (windowStart (now x1) t) ≠ []
            ∧ t.RequestLimit ≤ ((memoryRepo.GetUserNotificationSinceDate fold ⟨history', types⟩
              req.UserID t.Name (windowStart (now x1) t)).length : Int)) := by
        rw [← List.length_pos, ← List.length_pos, hlen]
      rw [memory_Send_of_resolved fold gateway cache ttl now req _ _ t hvalid hres,
        memory_Send_of_resolved fold gateway cache ttl now req _ _ t hvalid hres']
      by_cases hrej : memoryRepo.GetUserNotificationSinceDate fold ⟨history, types⟩ req.UserID
              t.Name (windowStart (now x1) t) ≠ []
            ∧ t.RequestLimit ≤ ((memoryRepo.GetUserNotificationSinceDate fold ⟨history, types⟩
              req.UserID t.Name (windowStart (now x1) t)).length : Int)
      · rw [if_pos hrej, if_pos (hverdict.mp hrej)]
        exact ⟨rfl, rfl, rfl⟩
      · rw [if_neg hrej, if_neg (fun h => hrej (hverdict.mpr h))]
        cases hsend : (gateway.Send req.UserID req.Message x1).1 with
        | some e =>
          have hgw : ∀ r : memoryRepo, ((memoryService fold gateway cache ttl now).gateway.Send
              req.UserID req.Message (r, x1)).1 = some e := fun _ => hsend
          simp only [callGatewaySend, hgw]
          exact ⟨trivial, trivial, rfl⟩
        | none =>
          have hgw : ∀ r : memoryRepo, ((memoryService fold gateway cache ttl now).gateway.Send
              req.UserID req.Message (r, x1)).1 = none := fun _ => hsend
          simp only [callGatewaySend, hgw]
          exact ⟨rfl, rfl, rfl⟩

end notification

namespace notification
open mock fixture

/-- C21 on the seeded registry: the two `STATUS` sends of user 1 stand alone in
one history and among records of user 2 and of type `NEWS`, with other ids, in
the other; a send of type `status` for user 1 at 20 s is rejected on both, and
a send at 125 s is admitted on both. -/
theorem Send_isolated_per_user_and_type_witness :
    (recordsNamed Char.toLower historyAlone 1 "status").map (fun n => n.Date)
      = (recordsNamed Char.toLower historyAmongOthers 1 "status").map (fun n => n.Date)
    ∧ recordsNamed Char.toLower historyAlone 1 "status"
      ≠ recordsNamed Char.toLower historyAmongOthers 1 "status"
    ∧ (Send Char.toLower (service okGateway coldCache) ⟨"status", "hi", 1⟩
        (start ⟨historyAlone, NewNotificationMemoryRepo.types⟩ 20000000000)).1
      = (Send Char.toLower (service okGateway coldCache) ⟨"status", "hi", 1⟩
        (start ⟨historyAmongOthers, NewNotificationMemoryRepo.types⟩ 20000000000)).1
    ∧ (Send Char.toLower (service okGateway coldCache) ⟨"status", "hi", 1⟩
        (start ⟨historyAlone, NewNotificationMemoryRepo.types⟩ 20000000000)).1
      = some Error.RateLimitError
    ∧ (Send Char.toLower (service okGateway coldCache) ⟨"status", "hi", 1⟩
        (start ⟨historyAlone, NewNotificationMemoryRepo.types⟩ 125000000000)).1
      = (Send Char.toLower (service okGateway coldCache) ⟨"status", "hi", 1⟩
        (start ⟨historyAmongOthers, NewNotificationMemoryRepo.types⟩ 125000000000)).1
    ∧ (Send Char.toLower (service okGateway coldCache) ⟨"status", "hi", 1⟩
        (start ⟨historyAlone, NewNotificationMemoryRepo.types⟩ 125000000000)).1 = none :=
  ⟨by decide, by decide,
    (Send_isolated_per_user_and_type Char.toLower okGateway coldCache hour (fun s => s)
      ⟨"status", "hi", 1⟩ historyAlone historyAmongOthers NewNotificationMemoryRepo.types
      20000000000 [] (by decide)).1,
    by decide,
    (Send_isolated_per_user_and_type Char.toLower okGateway coldCache hour (fun s => s)
      ⟨"status", "hi", 1⟩ historyAlone historyAmongOthers NewNotificationMemoryRepo.types
      125000000000 [] (by decide)).1,
    by decide⟩

end notification
